import Mathlib

/-!
# uROSnode turtlesim demo (`demos/turtlesim-chibios+lwip/src/app.c`)

A shallow embedding of the bounded message queue and of the turtle slot
registry of `app.c`, with the properties of its specification stated over it.

Conventions of the embedding:

* a call that hits a failing `urosAssert`, or that waits on a semaphore or a
  mutex that is not available, yields a `Fault` instead of a result;
* `void *` handles are natural numbers, `NULL` being `0`;
* `float` quantities are rationals (exact arithmetic); the constants of
  `app.h` are fields of `Config`;
* the array `turtles[MAX_TURTLES]` is a list, `MAX_TURTLES` being its length,
  and a `turtle_t *` into it is an index.
-/

namespace UrosTurtlesim

/-- Reasons for which a call gives no result: a failing `urosAssert`; a
wait (`urosSemWait`, `urosMutexLock`) on something that is not available; a
retry loop still turning when the allowed number of passes is used up; a
step on a slot or on a worker that does not exist. -/
inductive Fault where
  | assertion
  | blocked
  | retrying
  | badCall
  deriving DecidableEq, Repr

/-! ## FIFO message queue -/

/-- The queue object `fifo_t`: two counting semaphores, the capacity, the read
cursor `head`, the write cursor `tail`, the mutex of the slots and the slots
themselves (`none` is a slot of the fresh array that was never written). -/
structure fifo_t where
  freeSem : Nat
  usedSem : Nat
  length : Nat
  head : Nat
  tail : Nat
  slotsMtx : Bool
  slots : List (Option Nat)
  deriving DecidableEq, Repr

/-- The function `fifo_init(queuep, length)`. -/
def fifo_init (length : Nat) : Except Fault fifo_t :=
  if length = 0 then .error .assertion
  else .ok
    { freeSem := length
      usedSem := 0
      length := length
      head := 0
      tail := 0
      slotsMtx := false
      slots := List.replicate length none }

/-- The function `fifo_enqueue(queuep, msgp)`: wait on `freeSem`, lock, write at `tail`,
advance `tail` with wrap-around, unlock, signal `usedSem`. -/
def fifo_enqueue (q : fifo_t) (msgp : Nat) : Except Fault fifo_t :=
  if msgp = 0 then .error .assertion
  else if q.freeSem = 0 then .error .blocked
  else if q.slotsMtx then .error .blocked
  else .ok
    { q with
      freeSem := q.freeSem - 1
      slots := q.slots.set q.tail (some msgp)
      tail := if q.tail + 1 ≥ q.length then 0 else q.tail + 1
      usedSem := q.usedSem + 1 }

/-- The function `fifo_dequeue(queuep)`: wait on `usedSem`, lock, read at `head`, advance
`head` with wrap-around, unlock, signal `freeSem`; the handle read is
returned with the new queue. -/
def fifo_dequeue (q : fifo_t) : Except Fault (Option Nat × fifo_t) :=
  if q.usedSem = 0 then .error .blocked
  else if q.slotsMtx then .error .blocked
  else .ok
    (q.slots.getD q.head none,
     { q with
       usedSem := q.usedSem - 1
       head := if q.head + 1 ≥ q.length then 0 else q.head + 1
       freeSem := q.freeSem + 1 })

/-- One call on the queue. -/
inductive FifoOp where
  | enqueue (msgp : Nat)
  | dequeue
  deriving DecidableEq, Repr

/-- Runs a sequence of calls; the result holds the final queue and the
handles returned by the `fifo_dequeue` calls, in call order. A call that
would wait for ever (or fails an assertion) stops the run with its fault. -/
def fifo_run : fifo_t → List FifoOp → Except Fault (fifo_t × List (Option Nat))
  | q, [] => .ok (q, [])
  | q, FifoOp.enqueue m :: ops =>
    match fifo_enqueue q m with
    | .error e => .error e
    | .ok q1 => fifo_run q1 ops
  | q, FifoOp.dequeue :: ops =>
    match fifo_dequeue q with
    | .error e => .error e
    | .ok (r, q1) =>
      match fifo_run q1 ops with
      | .error e => .error e
      | .ok (q2, outs) => .ok (q2, r :: outs)

/-- The handles passed to `fifo_enqueue` by a sequence of calls, in order. -/
def enqueuedHandles : List FifoOp → List Nat
  | [] => []
  | FifoOp.enqueue m :: ops => m :: enqueuedHandles ops
  | FifoOp.dequeue :: ops => enqueuedHandles ops

/-- The number of `fifo_dequeue` calls of a sequence of calls. -/
def dequeueCount : List FifoOp → Nat
  | [] => 0
  | FifoOp.enqueue _ :: ops => dequeueCount ops
  | FifoOp.dequeue :: ops => dequeueCount ops + 1

/-- The guards under which the calls of a sequence are made, `stored` being
the number of handles stored when the sequence starts: an enqueue is made
only while fewer than `C` handles are stored, a dequeue only while at least
one is stored. -/
def fifoGuarded (C : Nat) : Nat → List FifoOp → Bool
  | _, [] => true
  | stored, FifoOp.enqueue _ :: ops => decide (stored < C) && fifoGuarded C (stored + 1) ops
  | stored, FifoOp.dequeue :: ops => decide (0 < stored) && fifoGuarded C (stored - 1) ops

/-- Invariant of the queue: `pending` lists the handles stored and not yet
dequeued, oldest first; they sit in the slots from `head` on, cyclically. -/
structure FifoInv (C : Nat) (q : fifo_t) (pending : List Nat) : Prop where
  pos : 0 < C
  len : q.length = C
  slen : q.slots.length = C
  hd : q.head < C
  tl : q.tail = (q.head + q.usedSem) % C
  sem : q.freeSem + q.usedSem = C
  mtx : q.slotsMtx = false
  used : pending.length = q.usedSem
  cont : ∀ i, i < pending.length →
    q.slots.getD ((q.head + i) % C) none = pending[i]?

/-! ## Strings, constants and turtle slots -/

/-- An `UrosString` is its bytes; the empty list is the empty string
(`length = 0`, `datap = NULL`). -/
abbrev UrosString := List Char

/-- Modelled from the spec: `urosStringCmp` of `urosBase.h`, a case-sensitive
and exact-length comparison; it is `0` exactly when both strings have the
same length and the same bytes. -/
def urosStringCmp (a b : UrosString) : Int :=
  if a = b then 0 else 1

/-- The function `urosStringClone`, with the outcome of its allocation as a parameter: a
failed allocation gives the empty string, whose `datap` is `NULL`. -/
def urosStringClone (allocated : Bool) (s : UrosString) : UrosString :=
  if allocated then s else []

/-- The constants of `app.h` and the two functions of `math.h` that
`app.c` uses. `_2PI` is the positive constant `(float)(2.0 * M_PI)`. -/
structure Config where
  SANDBOX_WIDTH : ℚ
  SANDBOX_HEIGHT : ℚ
  TURTLE_THREAD_PERIOD_MS : ℚ
  _2PI : ℚ
  _2PI_pos : 0 < _2PI
  cos : ℚ → ℚ
  sin : ℚ → ℚ

/-- The macro `min(a,b)`, that is `((a) <= (b)) ? (a) : (b)`. -/
def c_min (a b : ℚ) : ℚ := if a ≤ b then a else b

/-- The macro `max(a,b)`, that is `((a) >= (b)) ? (a) : (b)`. -/
def c_max (a b : ℚ) : ℚ := if a ≥ b then a else b

/-- The loop `while (theta < 0) { theta += _2PI; }`, in exact arithmetic: over
the rationals it ends for every angle, whereas on `float` the addition can
leave an angle of large magnitude unchanged. -/
def theta_add_loop (P : ℚ) (hP : 0 < P) (theta : ℚ) : ℚ :=
  if theta < 0 then theta_add_loop P hP (theta + P) else theta
termination_by (⌈-theta / P⌉).toNat
decreasing_by
  rename_i h
  have h1 : -(theta + P) / P = -theta / P - 1 := by field_simp; ring
  rw [h1, Int.ceil_sub_one]
  have h2 : 0 < ⌈-theta / P⌉ := Int.ceil_pos.mpr (div_pos (by linarith) hP)
  omega

/-- The loop `while (theta >= _2PI) { theta -= _2PI; }`, in exact arithmetic:
over the rationals it ends for every angle, whereas on `float` the
subtraction can leave an angle of large magnitude unchanged. -/
def theta_sub_loop (P : ℚ) (hP : 0 < P) (theta : ℚ) : ℚ :=
  if theta ≥ P then theta_sub_loop P hP (theta - P) else theta
termination_by (⌊theta / P⌋).toNat
decreasing_by
  rename_i h
  have h1 : (theta - P) / P = theta / P - 1 := by field_simp
  rw [h1, Int.floor_sub_one]
  have h2 : 0 < ⌊theta / P⌋ := Int.floor_pos.mpr ((one_le_div hP).mpr h)
  omega

/-- The slot states. -/
inductive turtle_status where
  | TURTLE_EMPTY
  | TURTLE_ALIVE
  | TURTLE_DEAD
  deriving DecidableEq, Repr

open turtle_status

/-- The message `msg__turtlesim__Pose`. -/
structure Pose where
  x : ℚ
  y : ℚ
  theta : ℚ
  linear_velocity : ℚ
  angular_velocity : ℚ
  deriving DecidableEq

/-- One slot, `turtle_t`; `lock` is true while the slot mutex is held. The
counters `countdown` and `refCnt` are unbounded naturals. -/
structure turtle_t where
  lock : Bool
  id : Nat
  name : UrosString
  poseTopic : UrosString
  velTopic : UrosString
  setpenService : UrosString
  telabsService : UrosString
  telrelService : UrosString
  pose : Pose
  countdown : Nat
  status : turtle_status
  refCnt : Nat
  deriving DecidableEq

/-- The function `turtle_init(turtlep, id)`. -/
def turtle_init (id : Nat) : turtle_t :=
  { lock := false
    id := id
    name := []
    poseTopic := []
    velTopic := []
    setpenService := []
    telabsService := []
    telrelService := []
    pose := { x := 0, y := 0, theta := 0, linear_velocity := 0, angular_velocity := 0 }
    countdown := 0
    status := TURTLE_EMPTY
    refCnt := 0 }

/-- The loop of `app_initialize` over the slots: `turtle_init(&turtles[i], i)`
for every `i < MAX_TURTLES`. -/
def turtles_init (MAX_TURTLES : Nat) : List turtle_t :=
  (List.range MAX_TURTLES).map turtle_init

/-- Applies `f` to slot `i` of the array, if there is one. -/
def modifyAt (f : turtle_t → turtle_t) : List turtle_t → Nat → List turtle_t
  | [], _ => []
  | t :: ts, 0 => f t :: ts
  | t :: ts, i + 1 => t :: modifyAt f ts i

/-- The function `turtle_unref(turtlep)`, called with the slot lock held. -/
def turtle_unref (t : turtle_t) : Except Fault turtle_t :=
  if t.refCnt = 0 then .error .assertion
  else if t.refCnt - 1 = 0 then
    if t.status = TURTLE_DEAD then
      .ok { t with refCnt := t.refCnt - 1, status := TURTLE_EMPTY }
    else .error .assertion
  else .ok { t with refCnt := t.refCnt - 1 }

/-! ## The messaging collaborator (`urosNode.h`) -/

/-- A call received by the node. -/
inductive NodeCall where
  | publishTopic (path : UrosString)
  | subscribeTopic (path : UrosString)
  | publishService (path : UrosString)
  | unpublishTopic (path : UrosString)
  | unsubscribeTopic (path : UrosString)
  | unpublishService (path : UrosString)
  deriving DecidableEq, Repr

/-- Modelled from the spec: the state of the messaging collaborator of
section 6, which `app.c` only calls: the published topics, the subscribed
topics and the published services, and the calls received so far in order. -/
structure UrosNode where
  pubTopics : List UrosString
  subTopics : List UrosString
  pubServices : List UrosString
  calls : List NodeCall
  deriving DecidableEq, Repr

/-- Modelled from the spec: `publish_topic(path, ..) -> Result`; `ok` is the
result the collaborator returns, a successful call registers the path. -/
def urosNodePublishTopicSZ (ok : Bool) (path : UrosString) (n : UrosNode) : UrosNode :=
  { n with
    pubTopics := if ok then n.pubTopics ++ [path] else n.pubTopics
    calls := n.calls ++ [NodeCall.publishTopic path] }

/-- Modelled from the spec: `subscribe_topic(path, ..) -> Result`. -/
def urosNodeSubscribeTopicSZ (ok : Bool) (path : UrosString) (n : UrosNode) : UrosNode :=
  { n with
    subTopics := if ok then n.subTopics ++ [path] else n.subTopics
    calls := n.calls ++ [NodeCall.subscribeTopic path] }

/-- Modelled from the spec: `publish_service(path, ..) -> Result`. -/
def urosNodePublishServiceSZ (ok : Bool) (path : UrosString) (n : UrosNode) : UrosNode :=
  { n with
    pubServices := if ok then n.pubServices ++ [path] else n.pubServices
    calls := n.calls ++ [NodeCall.publishService path] }

/-- Modelled from the spec: `unpublish_topic(path) -> Result`; a successful
call removes the path from the published topics. -/
def urosNodeUnpublishTopic (ok : Bool) (path : UrosString) (n : UrosNode) : UrosNode :=
  { n with
    pubTopics := if ok then n.pubTopics.erase path else n.pubTopics
    calls := n.calls ++ [NodeCall.unpublishTopic path] }

/-- Modelled from the spec: `unsubscribe_topic(path) -> Result`. -/
def urosNodeUnsubscribeTopic (ok : Bool) (path : UrosString) (n : UrosNode) : UrosNode :=
  { n with
    subTopics := if ok then n.subTopics.erase path else n.subTopics
    calls := n.calls ++ [NodeCall.unsubscribeTopic path] }

/-- Modelled from the spec: `unpublish_service(path) -> Result`. -/
def urosNodeUnpublishService (ok : Bool) (path : UrosString) (n : UrosNode) : UrosNode :=
  { n with
    pubServices := if ok then n.pubServices.erase path else n.pubServices
    calls := n.calls ++ [NodeCall.unpublishService path] }

/-! ## Global state -/

/-- The globals of `app.c`: the slots, the spawn gate and its mutex, the
slots whose `turtle_brain_thread` runs (the busy threads of
`turtlesThreadPool`), the node and the `/rosout` queue. -/
structure World where
  turtles : List turtle_t
  turtleCanSpawn : Bool
  turtleCanSpawnLock : Bool
  turtlesThreadPool : List Nat
  urosNode : UrosNode
  rosoutQueue : fifo_t
  deriving DecidableEq

/-- The state `app_initialize` builds before it spawns the first turtle:
queue of 8 slots, spawn gate open, idle thread pool, every slot initialised. -/
def app_initialize_state (MAX_TURTLES : Nat) : Except Fault World :=
  match fifo_init 8 with
  | .error e => .error e
  | .ok q => .ok
    { turtles := turtles_init MAX_TURTLES
      turtleCanSpawn := true
      turtleCanSpawnLock := false
      turtlesThreadPool := []
      urosNode := { pubTopics := [], subTopics := [], pubServices := [], calls := [] }
      rosoutQueue := q }

/-! ## turtle_spawn -/

/-- What the environment answers to one call of `turtle_spawn`, in program
order: the allocations (`urosStringClone` of the name, the five `urosAlloc`
of the endpoint strings, `urosStringClone` into the slot), the results of the
five registrations, and the results of the unregistrations made when a
registration fails. `true` is a successful allocation or `UROS_OK`. -/
structure SpawnEnv where
  allocName : Bool
  allocPos : Bool
  allocVel : Bool
  allocSetpen : Bool
  allocTelabs : Bool
  allocTelrel : Bool
  allocSlotName : Bool
  regPose : Bool
  regVel : Bool
  regSetpen : Bool
  regTelabs : Bool
  regTelrel : Bool
  undoPose : Bool
  undoVel : Bool
  undoSetpen : Bool
  undoTelabs : Bool
  deriving DecidableEq, Repr

/-- The `return` statement by which `turtle_spawn` left. -/
inductive SpawnExit where
  | disabled
  | nameConflict
  | poolExhausted
  | allocName
  | allocStrings
  | registration
  | spawned (i : Nat)
  deriving DecidableEq, Repr

/-- How one pass of the inner `for` over the slots ends: by the `return NULL`
of the name check, by the `break` at slot `i` (whose lock stays held), by
running through all slots, or waiting on a held lock. -/
inductive ScanPass where
  | conflict
  | found (i : Nat) (numAlive : Nat)
  | done (numAlive : Nat)
  | blocked
  deriving DecidableEq, Repr

/-- One pass of the inner `for` of `turtle_spawn`, from slot `i` on; the locks
taken and released again on the way are left as they were. -/
def turtle_spawn_pass (namep : UrosString) : List turtle_t → Nat → Nat → ScanPass
  | [], _, numAlive => .done numAlive
  | curp :: rest, i, numAlive =>
    if curp.lock then .blocked
    else if curp.status = TURTLE_ALIVE ∧ urosStringCmp curp.name namep = 0 then .conflict
    else if curp.status = TURTLE_EMPTY then
      .found i (if curp.status = TURTLE_ALIVE then numAlive + 1 else numAlive)
    else
      turtle_spawn_pass namep rest (i + 1)
        (if curp.status = TURTLE_ALIVE then numAlive + 1 else numAlive)

/-- How the slot search of `turtle_spawn` ends. -/
inductive ScanResult where
  | null (exit : SpawnExit) (ts : List turtle_t)
  | slot (i : Nat) (ts : List turtle_t)
  | blocked
  | retrying
  deriving DecidableEq

/-- The outer `for` of `turtle_spawn` ("Fill an empty slot"): `numAlive` is
set to zero once, before the first pass, and carried from pass to pass;
`passes` bounds the number of passes, and nothing else runs during the
10 ms sleeps. -/
def turtle_spawn_scan (namep : UrosString) (ts : List turtle_t) : Nat → Nat → ScanResult
  | 0, _ => .retrying
  | passes + 1, numAlive =>
    match turtle_spawn_pass namep ts 0 numAlive with
    | .blocked => .blocked
    | .conflict => .null .nameConflict ts
    | .found i n =>
      if n = ts.length then
        .null .poolExhausted (modifyAt (fun t => { t with lock := true }) ts i)
      else .slot i (modifyAt (fun t => { t with lock := true }) ts i)
    | .done n =>
      if n = ts.length then .null .poolExhausted ts
      else turtle_spawn_scan namep ts passes n

/-- The string `posend`. -/
def posend : UrosString := ['/', 'p', 'o', 's', 'e']

/-- The string `velend`. -/
def velend : UrosString :=
  ['/', 'c', 'o', 'm', 'm', 'a', 'n', 'd', '_', 'v', 'e', 'l', 'o', 'c', 'i', 't', 'y']

/-- The string `setpenend`. -/
def setpenend : UrosString := ['/', 's', 'e', 't', '_', 'p', 'e', 'n']

/-- The string `telabsend`. -/
def telabsend : UrosString :=
  ['/', 't', 'e', 'l', 'e', 'p', 'o', 'r', 't', '_', 'a', 'b', 's', 'o', 'l', 'u', 't', 'e']

/-- The string `telrelend`. -/
def telrelend : UrosString :=
  ['/', 't', 'e', 'l', 'e', 'p', 'o', 'r', 't', '_', 'r', 'e', 'l', 'a', 't', 'i', 'v', 'e']

/-- An endpoint string as `turtle_spawn` builds it: a slash, the bytes of the
name, the suffix. -/
def endpointName (namep suffix : UrosString) : UrosString :=
  '/' :: (namep ++ suffix)

/-- The block "Assign the new attributes" of `turtle_spawn`. -/
def turtle_spawn_assign (cfg : Config) (env : SpawnEnv) (namep : UrosString)
    (x y theta : ℚ) (t : turtle_t) : turtle_t :=
  { t with
    name := urosStringClone env.allocSlotName namep
    poseTopic := endpointName namep posend
    velTopic := endpointName namep velend
    setpenService := endpointName namep setpenend
    telabsService := endpointName namep telabsend
    telrelService := endpointName namep telrelend
    pose :=
      { x := c_min (c_max 0 x) cfg.SANDBOX_WIDTH
        y := c_min (c_max 0 y) cfg.SANDBOX_HEIGHT
        theta := theta_sub_loop cfg._2PI cfg._2PI_pos
          (theta_add_loop cfg._2PI cfg._2PI_pos theta)
        linear_velocity := 0
        angular_velocity := 0 }
    countdown := 0
    status := TURTLE_ALIVE
    refCnt := 1 }

/-- The five registrations of `turtle_spawn` with the unregistrations each
`urosError` block makes before `goto _error`; the flag tells whether all
five succeeded. -/
def turtle_spawn_register (env : SpawnEnv) (namep : UrosString) (n : UrosNode) :
    Bool × UrosNode :=
  let posname := endpointName namep posend
  let velname := endpointName namep velend
  let setpenname := endpointName namep setpenend
  let telabsname := endpointName namep telabsend
  let telrelname := endpointName namep telrelend
  let n1 := urosNodePublishTopicSZ env.regPose posname n
  if !env.regPose then (false, n1)
  else
    let n2 := urosNodeSubscribeTopicSZ env.regVel velname n1
    if !env.regVel then
      (false, urosNodeUnpublishTopic env.undoPose posname n2)
    else
      let n3 := urosNodePublishServiceSZ env.regSetpen setpenname n2
      if !env.regSetpen then
        (false, urosNodeUnpublishTopic env.undoVel velname
          (urosNodeUnpublishTopic env.undoPose posname n3))
      else
        let n4 := urosNodePublishServiceSZ env.regTelabs telabsname n3
        if !env.regTelabs then
          (false, urosNodeUnpublishService env.undoSetpen setpenname
            (urosNodeUnpublishTopic env.undoVel velname
              (urosNodeUnpublishTopic env.undoPose posname n4)))
        else
          let n5 := urosNodePublishServiceSZ env.regTelrel telrelname n4
          if !env.regTelrel then
            (false, urosNodeUnpublishService env.undoTelabs telabsname
              (urosNodeUnpublishService env.undoSetpen setpenname
                (urosNodeUnpublishTopic env.undoVel velname
                  (urosNodeUnpublishTopic env.undoPose posname n5))))
          else (true, n5)

/-- The label `_error` of `turtle_spawn`: the slot goes back to
`TURTLE_EMPTY` with no reference, the five local strings are cleaned, the
lock is released. The slot fields `name`, `poseTopic`, ... are not written
(the endpoint fields keep their length, their bytes are freed). -/
def turtle_spawn_error (t : turtle_t) : turtle_t :=
  { t with status := TURTLE_EMPTY, refCnt := 0, lock := false }

/-- The function `turtle_spawn(namep, x, y, theta)`. The result is the `return` taken and
the state left behind; `passes` bounds the passes of the slot search. -/
def turtle_spawn (cfg : Config) (env : SpawnEnv) (passes : Nat) (namep : UrosString)
    (x y theta : ℚ) (w : World) : Except Fault (SpawnExit × World) :=
  if namep = [] then .error .assertion
  else if w.turtleCanSpawnLock then .error .blocked
  else if !w.turtleCanSpawn then .ok (.disabled, w)
  else
    match turtle_spawn_scan namep w.turtles passes 0 with
    | .blocked => .error .blocked
    | .retrying => .error .retrying
    | .null exit ts => .ok (exit, { w with turtles := ts })
    | .slot i ts =>
      if !env.allocName then .ok (.allocName, { w with turtles := ts })
      else if !(env.allocPos && env.allocVel && env.allocSetpen && env.allocTelabs
          && env.allocTelrel) then
        .ok (.allocStrings, { w with turtles := ts })
      else
        let ts1 := modifyAt (turtle_spawn_assign cfg env namep x y theta) ts i
        match turtle_spawn_register env namep w.urosNode with
        | (false, n) =>
          .ok (.registration,
            { w with turtles := modifyAt turtle_spawn_error ts1 i, urosNode := n })
        | (true, n) =>
          if w.turtlesThreadPool.length ≥ w.turtles.length then .error .assertion
          else .ok (.spawned i,
            { w with
              turtles := modifyAt (fun t => { t with lock := false }) ts1 i
              urosNode := n
              turtlesThreadPool := w.turtlesThreadPool ++ [i] })

/-- The name of the first turtle, `turtle1`. -/
def turtle1 : UrosString := ['t', 'u', 'r', 't', 'l', 'e', '1']

/-- The function `app_initialize()`: the initial state, then the spawn of
`turtle1` in the middle of the sandbox, whose result is not looked at. -/
def app_initialize (cfg : Config) (env : SpawnEnv) (passes MAX_TURTLES : Nat) :
    Except Fault World :=
  match app_initialize_state MAX_TURTLES with
  | .error e => .error e
  | .ok w =>
    match turtle_spawn cfg env passes turtle1 ((1 / 2) * cfg.SANDBOX_WIDTH)
        ((1 / 2) * cfg.SANDBOX_HEIGHT) 0 w with
    | .error e => .error e
    | .ok (_, w1) => .ok w1

/-! ## turtle_kill, the lookups, the worker -/

/-- The results the collaborator returns to the five unregistrations of
`turtle_kill`, in call order (`true` is `UROS_OK`). -/
structure KillEnv where
  pose : Bool
  vel : Bool
  setpen : Bool
  telabs : Bool
  telrel : Bool
  deriving DecidableEq, Repr

/-- The five unregistrations of `turtle_kill`; a failure is only reported. -/
def turtle_kill_unregister (env : KillEnv) (t : turtle_t) (n : UrosNode) : UrosNode :=
  urosNodeUnpublishService env.telrel t.telrelService
    (urosNodeUnpublishService env.telabs t.telabsService
      (urosNodeUnpublishService env.setpen t.setpenService
        (urosNodeUnsubscribeTopic env.vel t.velTopic
          (urosNodeUnpublishTopic env.pose t.poseTopic n))))

/-- The block "Cleanup fields" of `turtle_kill`, lock and unlock included. -/
def turtle_kill_cleanup (t : turtle_t) : turtle_t :=
  { t with
    name := []
    poseTopic := []
    velTopic := []
    setpenService := []
    telabsService := []
    telrelService := []
    status := TURTLE_DEAD }

/-- The function `turtle_kill(turtlep)` on one slot and the node. -/
def turtle_kill (env : KillEnv) (t : turtle_t) (n : UrosNode) :
    Except Fault (turtle_t × UrosNode) :=
  if t.status ≠ TURTLE_ALIVE then .error .assertion
  else if t.lock then .error .blocked
  else .ok (turtle_kill_cleanup t, turtle_kill_unregister env t n)

/-- The loop of `turtle_refbyname` from slot `i` on. -/
def turtle_refbyname_loop (name : UrosString) :
    List turtle_t → Nat → Except Fault (Option Nat × List turtle_t)
  | [], _ => .ok (none, [])
  | t :: rest, i =>
    if t.lock then .error .blocked
    else if urosStringCmp name t.name = 0 then
      .ok (some i, { t with refCnt := t.refCnt + 1 } :: rest)
    else
      match turtle_refbyname_loop name rest (i + 1) with
      | .error e => .error e
      | .ok (r, rest1) => .ok (r, t :: rest1)

/-- The function `turtle_refbyname(name)`: the slot returned (or `NULL`) and the slots. -/
def turtle_refbyname (name : UrosString) (ts : List turtle_t) :
    Except Fault (Option Nat × List turtle_t) :=
  if name = [] then .error .assertion
  else turtle_refbyname_loop name ts 0

/-- The test of `turtle_refbypath` on one slot name: the path is long
enough, has a slash right after the place of the name, and the bytes after
its first one are those of the name (`memcmp` over the name length). -/
def pathMatches (topicName name : UrosString) : Bool :=
  decide (topicName.length ≥ 1 + name.length + 1) &&
    (topicName.getD (1 + name.length) ' ' == '/') &&
    ((topicName.drop 1).take name.length == name)

/-- The loop of `turtle_refbypath` from slot `i` on. -/
def turtle_refbypath_loop (topicName : UrosString) :
    List turtle_t → Nat → Except Fault (Option Nat × List turtle_t)
  | [], _ => .ok (none, [])
  | t :: rest, i =>
    if t.lock then .error .blocked
    else if pathMatches topicName t.name then
      .ok (some i, { t with refCnt := t.refCnt + 1 } :: rest)
    else
      match turtle_refbypath_loop topicName rest (i + 1) with
      | .error e => .error e
      | .ok (r, rest1) => .ok (r, t :: rest1)

/-- The function `turtle_refbypath(topicName)`. -/
def turtle_refbypath (topicName : UrosString) (ts : List turtle_t) :
    Except Fault (Option Nat × List turtle_t) :=
  if topicName = [] then .error .assertion
  else if topicName.head? ≠ some '/' then .error .assertion
  else turtle_refbypath_loop topicName ts 0

/-- The function `rosout_post`, reduced to what it does to the queue: `msgp` is the
message `urosNew` returns, checked against `NULL` and enqueued. -/
def rosout_post (msgp : Nat) (q : fifo_t) : Except Fault fifo_t :=
  if msgp = 0 then .error .assertion else fifo_enqueue q msgp

/-- Whether the test before `rosout_warn` in `turtle_brain_thread` holds for
the integrated position. -/
def hitTheWall (cfg : Config) (x y : ℚ) : Bool :=
  decide (x < 0) || decide (x > cfg.SANDBOX_WIDTH) ||
    decide (y < 0) || decide (y > cfg.SANDBOX_WIDTH)

/-- The branch `countdown > 0` of the loop body of `turtle_brain_thread`,
without its `rosout_warn`: the position and the angle integrated for one
period, then clamped and normalised. -/
def turtle_brain_integrate (cfg : Config) (t : turtle_t) : turtle_t :=
  let dt : ℚ := (1 / 1000) * cfg.TURTLE_THREAD_PERIOD_MS
  let x := t.pose.x + cfg.cos t.pose.theta * t.pose.linear_velocity * dt
  let y := t.pose.y + cfg.sin t.pose.theta * t.pose.linear_velocity * dt
  let theta := t.pose.theta + t.pose.angular_velocity * dt
  { t with
    countdown := t.countdown - 1
    pose :=
      { t.pose with
        x := c_min (c_max 0 x) cfg.SANDBOX_WIDTH
        y := c_min (c_max 0 y) cfg.SANDBOX_HEIGHT
        theta := theta_sub_loop cfg._2PI cfg._2PI_pos
          (theta_add_loop cfg._2PI cfg._2PI_pos theta) } }

/-- The position the branch `countdown > 0` tests against the walls. -/
def turtle_brain_unclamped (cfg : Config) (t : turtle_t) : ℚ × ℚ :=
  let dt : ℚ := (1 / 1000) * cfg.TURTLE_THREAD_PERIOD_MS
  (t.pose.x + cfg.cos t.pose.theta * t.pose.linear_velocity * dt,
   t.pose.y + cfg.sin t.pose.theta * t.pose.linear_velocity * dt)

/-- One iteration of the `while` of `turtle_brain_thread` on an ALIVE slot
whose lock the thread holds; `msgp` is the log message allocated when the
warning is posted. The slot and the `/rosout` queue come back. -/
def turtle_brain_tick (cfg : Config) (msgp : Nat) (t : turtle_t) (q : fifo_t) :
    Except Fault (turtle_t × fifo_t) :=
  if t.countdown > 0 then
    if hitTheWall cfg (turtle_brain_unclamped cfg t).1 (turtle_brain_unclamped cfg t).2 then
      match rosout_post msgp q with
      | .error e => .error e
      | .ok q1 => .ok (turtle_brain_integrate cfg t, q1)
    else .ok (turtle_brain_integrate cfg t, q)
  else
    .ok ({ t with pose := { t.pose with linear_velocity := 0, angular_velocity := 0 } }, q)

/-- One turn of `turtle_brain_thread` between taking and releasing the slot
lock: an iteration of the loop when the slot is ALIVE, otherwise the exit
(`turtle_unref`, unlock, return). The flag tells whether the thread
returned. -/
def turtle_brain_step (cfg : Config) (msgp : Nat) (t : turtle_t) (q : fifo_t) :
    Except Fault (turtle_t × fifo_t × Bool) :=
  if t.lock then .error .blocked
  else if t.status = TURTLE_ALIVE then
    match turtle_brain_tick cfg msgp t q with
    | .error e => .error e
    | .ok (t1, q1) => .ok (t1, q1, false)
  else
    match turtle_unref t with
    | .error e => .error e
    | .ok t1 => .ok (t1, q, true)

/-! ## Steps of the whole program -/

/-- The calls and thread steps that change the slots. -/
inductive Op where
  | spawn (env : SpawnEnv) (passes : Nat) (namep : UrosString) (x y theta : ℚ)
  | kill (i : Nat) (env : KillEnv)
  | refbyname (name : UrosString)
  | refbypath (topicName : UrosString)
  | unref (i : Nat)
  | worker (i : Nat) (msgp : Nat)

/-- Runs one step. `unref i` is the release of a reference by its holder:
lock slot `i`, `turtle_unref`, unlock. `worker i msgp` is a turn of the
brain thread of slot `i`, which must be running. -/
def World.step (cfg : Config) (w : World) : Op → Except Fault World
  | .spawn env passes namep x y theta =>
    match turtle_spawn cfg env passes namep x y theta w with
    | .error e => .error e
    | .ok (_, w1) => .ok w1
  | .kill i env =>
    match w.turtles[i]? with
    | none => .error .badCall
    | some t =>
      match turtle_kill env t w.urosNode with
      | .error e => .error e
      | .ok (t1, n1) =>
        .ok { w with turtles := modifyAt (fun _ => t1) w.turtles i, urosNode := n1 }
  | .refbyname name =>
    match turtle_refbyname name w.turtles with
    | .error e => .error e
    | .ok (_, ts) => .ok { w with turtles := ts }
  | .refbypath topicName =>
    match turtle_refbypath topicName w.turtles with
    | .error e => .error e
    | .ok (_, ts) => .ok { w with turtles := ts }
  | .unref i =>
    match w.turtles[i]? with
    | none => .error .badCall
    | some t =>
      if t.lock then .error .blocked
      else
        match turtle_unref t with
        | .error e => .error e
        | .ok t1 => .ok { w with turtles := modifyAt (fun _ => t1) w.turtles i }
  | .worker i msgp =>
    match w.turtles[i]? with
    | none => .error .badCall
    | some t =>
      if i ∉ w.turtlesThreadPool then .error .badCall
      else
        match turtle_brain_step cfg msgp t w.rosoutQueue with
        | .error e => .error e
        | .ok (t1, q1, returned) =>
          .ok { w with
                turtles := modifyAt (fun _ => t1) w.turtles i
                rosoutQueue := q1
                turtlesThreadPool :=
                  if returned then w.turtlesThreadPool.erase i else w.turtlesThreadPool }

/-- Runs a sequence of steps from a state. -/
def World.run (cfg : Config) : World → List Op → Except Fault World
  | w, [] => .ok w
  | w, op :: ops =>
    match World.step cfg w op with
    | .error e => .error e
    | .ok w1 => World.run cfg w1 ops

/-- A state is reachable when a sequence of steps leads to it from the
state `app_initialize` sets up with `MAX_TURTLES` slots. -/
def Reachable (cfg : Config) (MAX_TURTLES : Nat) (w : World) : Prop :=
  ∃ w0 ops, app_initialize_state MAX_TURTLES = .ok w0 ∧ World.run cfg w0 ops = .ok w

/-! ## Auxiliary definitions for the statements -/

/-- The environment in which every allocation and every collaborator call of
`turtle_spawn` succeeds. -/
def spawnEnvOk : SpawnEnv :=
  { allocName := true, allocPos := true, allocVel := true, allocSetpen := true,
    allocTelabs := true, allocTelrel := true, allocSlotName := true,
    regPose := true, regVel := true, regSetpen := true, regTelabs := true,
    regTelrel := true, undoPose := true, undoVel := true, undoSetpen := true,
    undoTelabs := true }

/-- The environment in which every unregistration of `turtle_kill` succeeds. -/
def killEnvOk : KillEnv :=
  { pose := true, vel := true, setpen := true, telabs := true, telrel := true }

/-- Status, name and reference count of every slot, in slot order. -/
def slotSummary (ts : List turtle_t) : List (turtle_status × UrosString × Nat) :=
  ts.map fun t => (t.status, t.name, t.refCnt)

/-- The slots of the state a run ends in, summarised; `none` when the run
stops on a fault. -/
def runSummary (r : Except Fault World) : Option (List (turtle_status × UrosString × Nat)) :=
  match r with
  | .ok w => some (slotSummary w.turtles)
  | .error _ => none

/-- A sample configuration: an 11 by 11 sandbox, a period of 20 ms, the
`float` nearest to twice pi, and polynomial stand-ins for `cos` and `sin`. -/
def sampleConfig : Config :=
  { SANDBOX_WIDTH := 11
    SANDBOX_HEIGHT := 11
    TURTLE_THREAD_PERIOD_MS := 20
    _2PI := 13176795 / 2097152
    _2PI_pos := by norm_num
    cos := fun t => 1 - t ^ 2 / 2 + t ^ 4 / 24
    sin := fun t => t - t ^ 3 / 6 + t ^ 5 / 120 }

/-- A state with the given slots: spawn gate open, no worker running, nothing
registered at the node, an empty `/rosout` queue of 8 slots. -/
def worldOf (ts : List turtle_t) : World :=
  { turtles := ts
    turtleCanSpawn := true
    turtleCanSpawnLock := false
    turtlesThreadPool := []
    urosNode := { pubTopics := [], subTopics := [], pubServices := [], calls := [] }
    rosoutQueue :=
      { freeSem := 8, usedSem := 0, length := 8, head := 0, tail := 0, slotsMtx := false,
        slots := List.replicate 8 none } }

/-- A sample slot: slot 0 as a successful spawn of the name `a` leaves it. -/
def sampleAlive : turtle_t :=
  { turtle_init 0 with
    name := ['a']
    poseTopic := endpointName ['a'] posend
    velTopic := endpointName ['a'] velend
    setpenService := endpointName ['a'] setpenend
    telabsService := endpointName ['a'] telabsend
    telrelService := endpointName ['a'] telrelend
    status := TURTLE_ALIVE
    refCnt := 1 }

/-- A sample slot: slot 0, DEAD, with the reference of its worker left. -/
def sampleDead : turtle_t :=
  { turtle_init 0 with status := TURTLE_DEAD, refCnt := 1 }

/-- Every allocation of the call succeeds. -/
def SpawnEnv.allocated (env : SpawnEnv) : Bool :=
  env.allocName && env.allocPos && env.allocVel && env.allocSetpen && env.allocTelabs &&
    env.allocTelrel && env.allocSlotName

/-- Every endpoint registration of the call succeeds. -/
def SpawnEnv.registered (env : SpawnEnv) : Bool :=
  env.regPose && env.regVel && env.regSetpen && env.regTelabs && env.regTelrel

/-- One call of `turtle_spawn`: its arguments, what the environment answers,
and the passes allowed to its slot search. -/
structure SpawnRequest where
  env : SpawnEnv
  passes : Nat
  namep : UrosString
  x : ℚ
  y : ℚ
  theta : ℚ

/-- The step that makes the call. -/
def SpawnRequest.op (r : SpawnRequest) : Op :=
  Op.spawn r.env r.passes r.namep r.x r.y r.theta

/-- The call itself. -/
def SpawnRequest.call (cfg : Config) (r : SpawnRequest) (w : World) :
    Except Fault (SpawnExit × World) :=
  turtle_spawn cfg r.env r.passes r.namep r.x r.y r.theta w

/-- A request with a non-empty name, at least one pass for the slot search,
and an environment where every allocation and every registration succeeds. -/
def SpawnRequest.served (r : SpawnRequest) : Prop :=
  r.namep ≠ [] ∧ 0 < r.passes ∧ r.env.allocated = true ∧ r.env.registered = true

/-- The state of a pool of `N` slots filled in slot order by spawns of the
names `names`, nothing having been killed: the first slots are ALIVE and
unlocked and carry these names, the others are as `turtle_init` left them,
the gate is open and one worker runs per name. -/
structure Filled (N : Nat) (names : List UrosString) (w : World) : Prop where
  slots : ∃ as : List turtle_t,
    w.turtles = as ++ (List.range' names.length (N - names.length)).map turtle_init ∧
    as.map (fun a => a.name) = names ∧
    ∀ a ∈ as, a.lock = false ∧ a.status = TURTLE_ALIVE
  gate : w.turtleCanSpawn = true
  gateLock : w.turtleCanSpawnLock = false
  pool : w.turtlesThreadPool.length = names.length
  le : names.length ≤ N

/-- A path of the form the lookup by path is meant for: a slash, the whole
name, a slash, then any remainder. -/
def IsPathOf (topicName name : UrosString) : Prop :=
  ∃ rest : UrosString, topicName = '/' :: (name ++ '/' :: rest)

/-- The slot with one more reference, nothing else changed. -/
def addRef (t : turtle_t) : turtle_t :=
  { t with refCnt := t.refCnt + 1 }

/-- The position of a pose lies in the sandbox. -/
def inSandbox (cfg : Config) (p : Pose) : Prop :=
  0 ≤ p.x ∧ p.x ≤ cfg.SANDBOX_WIDTH ∧ 0 ≤ p.y ∧ p.y ≤ cfg.SANDBOX_HEIGHT

/-- The tick period in seconds, `0.001f * TURTLE_THREAD_PERIOD_MS`. -/
def tickSeconds (cfg : Config) : ℚ :=
  (1 / 1000) * cfg.TURTLE_THREAD_PERIOD_MS

/-- Successive turns of `turtle_brain_thread` on a slot, one per element of
the list (the log message each turn would allocate), until the list is used
up or the thread returns. -/
def turtle_brain_run (cfg : Config) : List Nat → turtle_t → fifo_t →
    Except Fault (turtle_t × fifo_t)
  | [], t, q => .ok (t, q)
  | m :: ms, t, q =>
    match turtle_brain_step cfg m t q with
    | .error e => .error e
    | .ok (t1, q1, true) => .ok (t1, q1)
    | .ok (t1, q1, false) => turtle_brain_run cfg ms t1 q1

/-- A sample slot: ALIVE at the right wall of the sample sandbox, heading
along `x` with unit speed for one more tick. -/
def sampleAtWall : turtle_t :=
  { sampleAlive with
    pose := { x := 11, y := 5, theta := 0, linear_velocity := 1, angular_velocity := 0 }
    countdown := 1 }

/-- A sample slot: ALIVE at the left wall of the sample sandbox, heading
along `x` with unit speed for three more ticks. -/
def sampleStarting : turtle_t :=
  { sampleAlive with
    pose := { x := 0, y := 5, theta := 0, linear_velocity := 1, angular_velocity := 0 }
    countdown := 3 }

/-- A sample configuration whose sandbox is narrower than high: 5 by 11. -/
def narrowConfig : Config :=
  { sampleConfig with SANDBOX_WIDTH := 5 }

/-- A sample configuration whose sandbox is wider than high: 11 by 5. -/
def lowConfig : Config :=
  { sampleConfig with SANDBOX_HEIGHT := 5 }

/-- A sample slot: ALIVE and at rest at `(1, 7)`, with one tick of its
command left. -/
def sampleResting : turtle_t :=
  { sampleAlive with
    pose := { x := 1, y := 7, theta := 0, linear_velocity := 0, angular_velocity := 0 }
    countdown := 1 }

/-- A sample slot: ALIVE at `(1, 5)`, heading upwards (angle 1) with unit
speed for one more tick. -/
def sampleClimbing : turtle_t :=
  { sampleAlive with
    pose := { x := 1, y := 5, theta := 1, linear_velocity := 1, angular_velocity := 0 }
    countdown := 1 }

theorem wrap_eq_mod (h C : Nat) (hlt : h < C) :
    (if h + 1 ≥ C then 0 else h + 1) = (h + 1) % C := by
  by_cases hc : h + 1 ≥ C
  · have : h + 1 = C := by omega
    simp [this]
  · rw [if_neg hc, Nat.mod_eq_of_lt (by omega)]

theorem mod_add_ne (h i j C : Nat) (hij : i < j) (hj : j < C) :
    (h + i) % C ≠ (h + j) % C := by
  intro heq
  have h1 : Nat.ModEq C (h + i) (h + j) := heq
  have h2 : Nat.ModEq C i j := Nat.ModEq.add_left_cancel' h h1
  have h3 : i % C = j % C := h2
  rw [Nat.mod_eq_of_lt (by omega), Nat.mod_eq_of_lt hj] at h3
  omega

theorem fifo_init_inv (C : Nat) (q : fifo_t) (h : fifo_init C = .ok q) :
    FifoInv C q [] := by
  unfold fifo_init at h
  by_cases hC : C = 0
  · simp [hC] at h
  · simp only [hC, if_false, Except.ok.injEq] at h
    subst h
    exact
      { pos := Nat.pos_of_ne_zero hC
        len := rfl
        slen := by simp
        hd := Nat.pos_of_ne_zero hC
        tl := by simp
        sem := by simp
        mtx := rfl
        used := rfl
        cont := by intro i hi; simp at hi }

theorem fifo_enqueue_inv (C : Nat) (q q1 : fifo_t) (pending : List Nat) (m : Nat)
    (inv : FifoInv C q pending) (h : fifo_enqueue q m = .ok q1) :
    FifoInv C q1 (pending ++ [m]) := by
  unfold fifo_enqueue at h
  by_cases hm : m = 0
  · simp [hm] at h
  by_cases hf : q.freeSem = 0
  · simp [hm, hf] at h
  have hmtx := inv.mtx
  simp only [hm, hf, hmtx, if_false, Bool.false_eq_true, Except.ok.injEq] at h
  subst h
  have hsem := inv.sem
  have hused := inv.used
  have htl := inv.tl
  have hlen := inv.len
  have hpos := inv.pos
  have htlt : q.tail < C := by rw [htl]; exact Nat.mod_lt _ hpos
  refine
    { pos := hpos
      len := hlen
      slen := by simp [inv.slen]
      hd := inv.hd
      tl := ?_
      sem := by simp only; omega
      mtx := rfl
      used := by simp [hused]
      cont := ?_ }
  · simp only
    rw [hlen, wrap_eq_mod _ _ htlt, htl, Nat.mod_add_mod, Nat.add_assoc]
  · intro i hi
    simp only [List.length_append, List.length_singleton] at hi
    simp only
    by_cases hlast : i = pending.length
    · subst hlast
      have hidx : (q.head + pending.length) % C = q.tail := by rw [hused, htl]
      rw [hidx]
      simp [List.getD_eq_getElem?_getD, inv.slen, htlt]
    · have hi2 : i < pending.length := by omega
      have hne : (q.head + i) % C ≠ q.tail := by
        rw [htl]
        exact mod_add_ne _ _ _ _ (by omega) (by omega)
      rw [List.getElem?_append_left hi2, ← inv.cont i hi2]
      simp only [List.getD_eq_getElem?_getD]
      rw [List.getElem?_set_ne (Ne.symm hne)]

theorem fifo_dequeue_inv (C : Nat) (q q1 : fifo_t) (pending : List Nat) (r : Option Nat)
    (inv : FifoInv C q pending) (h : fifo_dequeue q = .ok (r, q1)) :
    ∃ x rest, pending = x :: rest ∧ r = some x ∧ FifoInv C q1 rest := by
  unfold fifo_dequeue at h
  by_cases hu : q.usedSem = 0
  · simp [hu] at h
  have hmtx := inv.mtx
  simp only [hu, hmtx, if_false, Bool.false_eq_true, Except.ok.injEq, Prod.mk.injEq] at h
  obtain ⟨hr, hq⟩ := h
  subst hq
  have hused := inv.used
  have hpos := inv.pos
  have hhd := inv.hd
  cases pending with
  | nil => simp at hused; omega
  | cons x rest =>
    refine ⟨x, rest, rfl, ?_, ?_⟩
    · have h0 := inv.cont 0 (by simp)
      rw [Nat.add_zero, Nat.mod_eq_of_lt hhd] at h0
      rw [← hr, h0]
      simp
    · have hhd1 : (if q.head + 1 ≥ q.length then 0 else q.head + 1) = (q.head + 1) % C := by
        rw [inv.len]; exact wrap_eq_mod _ _ hhd
      refine
        { pos := hpos
          len := inv.len
          slen := inv.slen
          hd := by simp only; rw [hhd1]; exact Nat.mod_lt _ hpos
          tl := ?_
          sem := by have := inv.sem; simp only; omega
          mtx := rfl
          used := by simp at hused; simp only; omega
          cont := ?_ }
      · simp only
        rw [hhd1, inv.tl, Nat.mod_add_mod]
        congr 1
        omega
      · intro i hi
        simp only
        rw [hhd1, Nat.mod_add_mod]
        have := inv.cont (i + 1) (by simp; omega)
        rw [show q.head + 1 + i = q.head + (i + 1) by omega, this]
        simp

theorem fifo_run_inv (C : Nat) (ops : List FifoOp) :
    ∀ (q q1 : fifo_t) (pending : List Nat) (outs : List (Option Nat)),
      FifoInv C q pending → fifo_run q ops = .ok (q1, outs) →
      ∃ vals rest, outs = vals.map some ∧
        pending ++ enqueuedHandles ops = vals ++ rest ∧ FifoInv C q1 rest := by
  induction ops with
  | nil =>
    intro q q1 pending outs inv h
    simp only [fifo_run, Except.ok.injEq, Prod.mk.injEq] at h
    obtain ⟨hq, ho⟩ := h
    subst hq; subst ho
    exact ⟨[], pending, rfl, by simp [enqueuedHandles], inv⟩
  | cons op ops ih =>
    intro q q1 pending outs inv h
    cases op with
    | enqueue m =>
      simp only [fifo_run] at h
      cases he : fifo_enqueue q m with
      | error e => rw [he] at h; simp at h
      | ok q2 =>
        rw [he] at h
        obtain ⟨vals, rest, h1, h2, h3⟩ := ih q2 q1 _ outs (fifo_enqueue_inv C q q2 pending m inv he) h
        refine ⟨vals, rest, h1, ?_, h3⟩
        simpa [enqueuedHandles] using h2
    | dequeue =>
      simp only [fifo_run] at h
      cases hd : fifo_dequeue q with
      | error e => rw [hd] at h; simp at h
      | ok p =>
        obtain ⟨r, q2⟩ := p
        simp only [hd] at h
        obtain ⟨x, rest0, hp, hr, inv2⟩ := fifo_dequeue_inv C q q2 pending r inv hd
        cases hrun : fifo_run q2 ops with
        | error e => simp [hrun] at h
        | ok p2 =>
          obtain ⟨q3, outs2⟩ := p2
          simp only [hrun, Except.ok.injEq, Prod.mk.injEq] at h
          obtain ⟨hq, ho⟩ := h
          subst hq; subst ho
          obtain ⟨vals, rest, h1, h2, h3⟩ := ih q2 q3 rest0 outs2 inv2 hrun
          refine ⟨x :: vals, rest, by simp [h1, hr], ?_, h3⟩
          subst hp
          simpa [enqueuedHandles] using h2

theorem fifo_enqueue_runs (C : Nat) (q : fifo_t) (pending : List Nat) (m : Nat)
    (inv : FifoInv C q pending) (hm : m ≠ 0) (hroom : pending.length < C) :
    ∃ q1, fifo_enqueue q m = .ok q1 := by
  have hf : q.freeSem ≠ 0 := by
    have := inv.sem
    have := inv.used
    omega
  simp only [fifo_enqueue, hm, hf, inv.mtx, if_false, Bool.false_eq_true]
  exact ⟨_, rfl⟩

theorem fifo_dequeue_runs (C : Nat) (q : fifo_t) (pending : List Nat)
    (inv : FifoInv C q pending) (hsome : pending ≠ []) :
    ∃ r q1, fifo_dequeue q = .ok (r, q1) := by
  have hu : q.usedSem ≠ 0 := by
    rw [← inv.used]
    exact fun h => hsome (List.length_eq_zero.mp h)
  simp only [fifo_dequeue, hu, inv.mtx, if_false, Bool.false_eq_true]
  exact ⟨_, _, rfl⟩

theorem fifo_run_guarded (C : Nat) (ops : List FifoOp) :
    ∀ (q : fifo_t) (pending : List Nat), FifoInv C q pending →
      fifoGuarded C pending.length ops = true →
      (∀ m ∈ enqueuedHandles ops, m ≠ 0) →
      ∃ q1 outs, fifo_run q ops = .ok (q1, outs) ∧ outs.length = dequeueCount ops := by
  induction ops with
  | nil =>
    intro q pending _ _ _
    exact ⟨q, [], rfl, rfl⟩
  | cons op ops ih =>
    intro q pending inv hg hm
    cases op with
    | enqueue m =>
      simp only [fifoGuarded, Bool.and_eq_true, decide_eq_true_eq] at hg
      have hm0 : m ≠ 0 := hm m (by simp [enqueuedHandles])
      obtain ⟨q1, he⟩ := fifo_enqueue_runs C q pending m inv hm0 hg.1
      have inv1 := fifo_enqueue_inv C q q1 pending m inv he
      obtain ⟨q2, outs, hrun, hlen⟩ := ih q1 (pending ++ [m]) inv1
        (by simpa using hg.2)
        (fun k hk => hm k (by simp [enqueuedHandles, hk]))
      exact ⟨q2, outs, by simp only [fifo_run, he, hrun], by simpa [dequeueCount] using hlen⟩
    | dequeue =>
      simp only [fifoGuarded, Bool.and_eq_true, decide_eq_true_eq] at hg
      have hne : pending ≠ [] := by
        intro h
        rw [h] at hg
        simp at hg
      obtain ⟨r, q1, hd⟩ := fifo_dequeue_runs C q pending inv hne
      obtain ⟨x, rest, hp, _, inv1⟩ := fifo_dequeue_inv C q q1 pending r inv hd
      have hg2 : fifoGuarded C rest.length ops = true := by
        have := hg.2
        rw [hp] at this
        simpa using this
      obtain ⟨q2, outs, hrun, hlen⟩ := ih q1 rest inv1 hg2
        (fun k hk => hm k (by simpa [enqueuedHandles] using hk))
      exact ⟨q2, r :: outs, by simp only [fifo_run, hd, hrun],
        by simp [dequeueCount, hlen]⟩

/-- C1: for every capacity `C > 0` and every sequence of `fifo_enqueue` /
`fifo_dequeue` calls with non-NULL handles in which each enqueue is made only
while fewer than `C` handles are stored and each dequeue only while at least
one is stored, the calls made one after the other on the queue of
`fifo_init C` all return, every dequeue returns a handle, and the k-th
dequeue returns the handle of the k-th enqueue: the handles dequeued are the
first ones enqueued, in order. -/
theorem fifo_dequeue_order (C : Nat) (ops : List FifoOp) (hC : 0 < C)
    (hguard : fifoGuarded C 0 ops = true) (hhandles : ∀ m ∈ enqueuedHandles ops, m ≠ 0) :
    ∃ q0 q outs, fifo_init C = .ok q0 ∧ fifo_run q0 ops = .ok (q, outs) ∧
      outs.length = dequeueCount ops ∧
      outs = ((enqueuedHandles ops).take (dequeueCount ops)).map some ∧
      outs <+: (enqueuedHandles ops).map some := by
  obtain ⟨q0, hinit⟩ : ∃ q0, fifo_init C = .ok q0 := by
    simp only [fifo_init, Nat.pos_iff_ne_zero.mp hC, if_false]
    exact ⟨_, rfl⟩
  have inv0 := fifo_init_inv C q0 hinit
  obtain ⟨q, outs, hrun, hlen⟩ := fifo_run_guarded C ops q0 [] inv0 hguard hhandles
  obtain ⟨vals, rest, h1, h2, _⟩ := fifo_run_inv C ops q0 q [] outs inv0 hrun
  simp only [List.nil_append] at h2
  have hvals : vals.length = dequeueCount ops := by
    rw [← hlen, h1, List.length_map]
  refine ⟨q0, q, outs, hinit, hrun, hlen, ?_, ?_⟩
  · rw [h1, h2, ← hvals, List.take_left]
  · rw [h1, h2, List.map_append]
    exact List.prefix_append _ _

theorem fifo_dequeue_order_witness :
    0 < 2 ∧
      fifoGuarded 2 0 [FifoOp.enqueue 7, FifoOp.enqueue 8, FifoOp.dequeue, FifoOp.enqueue 9,
        FifoOp.dequeue, FifoOp.enqueue 5, FifoOp.dequeue] = true ∧
      ∃ q0 q outs, fifo_init 2 = .ok q0 ∧
        fifo_run q0 [FifoOp.enqueue 7, FifoOp.enqueue 8, FifoOp.dequeue, FifoOp.enqueue 9,
          FifoOp.dequeue, FifoOp.enqueue 5, FifoOp.dequeue] = .ok (q, outs) ∧
        outs.length = 3 ∧ outs = [some 7, some 8, some 9] ∧
        outs <+: [some 7, some 8, some 9, some 5] :=
  ⟨by decide, rfl,
    fifo_dequeue_order 2
      [FifoOp.enqueue 7, FifoOp.enqueue 8, FifoOp.dequeue, FifoOp.enqueue 9,
        FifoOp.dequeue, FifoOp.enqueue 5, FifoOp.dequeue]
      (by decide) rfl (by decide)⟩

/-! ## Properties of the turtle registry -/

theorem modifyAt_length (f : turtle_t → turtle_t) (ts : List turtle_t) (i : Nat) :
    (modifyAt f ts i).length = ts.length := by
  induction ts generalizing i with
  | nil => rfl
  | cons t ts ih => cases i <;> simp [modifyAt, ih]

theorem modifyAt_getElem?_eq (f : turtle_t → turtle_t) (ts : List turtle_t) (i : Nat)
    (t : turtle_t) (h : ts[i]? = some t) : (modifyAt f ts i)[i]? = some (f t) := by
  induction ts generalizing i with
  | nil => simp at h
  | cons a ts ih =>
    cases i with
    | zero => simp at h; simp [modifyAt, h]
    | succ i => simp at h; simpa [modifyAt] using ih i h

theorem modifyAt_getElem?_ne (f : turtle_t → turtle_t) (ts : List turtle_t) (i j : Nat)
    (h : j ≠ i) : (modifyAt f ts i)[j]? = ts[j]? := by
  induction ts generalizing i j with
  | nil => rfl
  | cons a ts ih =>
    cases i with
    | zero =>
      cases j with
      | zero => exact absurd rfl h
      | succ j => simp [modifyAt]
    | succ i =>
      cases j with
      | zero => simp [modifyAt]
      | succ j => simpa [modifyAt] using ih i j (by omega)

theorem modifyAt_append (f : turtle_t → turtle_t) (as : List turtle_t) (e : turtle_t)
    (rest : List turtle_t) : modifyAt f (as ++ e :: rest) as.length = as ++ f e :: rest := by
  induction as with
  | nil => rfl
  | cons a as ih => simp [modifyAt, ih]


/-- C2 (evaluation at the failing input): with two slots, after spawning
`a` and `b`, killing `a` and letting its worker leave, slot 0 is EMPTY and
slot 1 is ALIVE with name `b`; `turtle_spawn` of the name `b` then stops its
scan at the EMPTY slot 0, never compares the name of slot 1, returns slot 0
and leaves two ALIVE slots named `b`. -/
theorem turtle_spawn_conflict_behind_empty_slot (cfg : Config) :
    ∃ w0 w1 w2, app_initialize_state 2 = .ok w0 ∧
      World.run cfg w0
        [Op.spawn spawnEnvOk 1 ['a'] 0 0 0, Op.spawn spawnEnvOk 1 ['b'] 0 0 0,
         Op.kill 0 killEnvOk, Op.worker 0 1] = .ok w1 ∧
      slotSummary w1.turtles = [(TURTLE_EMPTY, [], 0), (TURTLE_ALIVE, ['b'], 1)] ∧
      turtle_spawn cfg spawnEnvOk 1 ['b'] 0 0 0 w1 = .ok (SpawnExit.spawned 0, w2) ∧
      slotSummary w2.turtles = [(TURTLE_ALIVE, ['b'], 1), (TURTLE_ALIVE, ['b'], 1)] :=
  ⟨_, _, _, rfl, rfl, rfl, rfl, rfl⟩

/-- C3 (evaluation at the failing input): with two slots, after spawning `a`
and `b`, looking `b` up, killing it and letting its worker leave, slot 0 is
ALIVE and slot 1 is DEAD, held by the reference of the lookup. `turtle_spawn`
of a third name retries after its first pass, and on its second pass the
count `numAlive`, which was not reset, reaches `MAX_TURTLES`: the call
returns `NULL` for pool exhaustion although slot 1 is DEAD, not ALIVE. -/
theorem turtle_spawn_gives_up_beside_dead_slot (cfg : Config) :
    ∃ w0 w1, app_initialize_state 2 = .ok w0 ∧
      World.run cfg w0
        [Op.spawn spawnEnvOk 1 ['a'] 0 0 0, Op.spawn spawnEnvOk 1 ['b'] 0 0 0,
         Op.refbyname ['b'], Op.kill 1 killEnvOk, Op.worker 1 1] = .ok w1 ∧
      slotSummary w1.turtles = [(TURTLE_ALIVE, ['a'], 1), (TURTLE_DEAD, [], 1)] ∧
      turtle_spawn cfg spawnEnvOk 1 ['c'] 0 0 0 w1 = .error Fault.retrying ∧
      turtle_spawn cfg spawnEnvOk 2 ['c'] 0 0 0 w1 = .ok (SpawnExit.poolExhausted, w1) :=
  ⟨_, _, rfl, rfl, rfl, rfl, rfl⟩

/-- C5 (evaluation at the failing input): when the second `urosStringClone`
of `turtle_spawn`, the one stored into the slot, cannot allocate, the call
still registers the endpoints, starts the worker and returns the slot, which
is ALIVE with an empty name instead of the requested one. -/
theorem turtle_spawn_returns_unnamed_slot (cfg : Config) :
    ∃ w0 w1, app_initialize_state 1 = .ok w0 ∧
      turtle_spawn cfg { spawnEnvOk with allocSlotName := false } 1 ['a'] 0 0 0 w0 =
        .ok (SpawnExit.spawned 0, w1) ∧
      slotSummary w1.turtles = [(TURTLE_ALIVE, [], 1)] :=
  ⟨_, _, rfl, rfl, rfl⟩

/-- C6 (evaluation at the failing input): when the third registration (the
`set_pen` service) is the first to fail, `turtle_spawn` undoes the
subscription of the velocity topic with `urosNodeUnpublishTopic`, not with
`urosNodeUnsubscribeTopic`: it returns `NULL` with the slot EMPTY and
unreferenced, but the topic is still in the subscribed topics of the node,
which were empty before the call. -/
theorem turtle_spawn_keeps_subscription (cfg : Config) :
    ∃ w0 w1, app_initialize_state 1 = .ok w0 ∧
      turtle_spawn cfg { spawnEnvOk with regSetpen := false } 1 ['a'] 0 0 0 w0 =
        .ok (SpawnExit.registration, w1) ∧
      w0.urosNode.subTopics = [] ∧
      w1.urosNode.subTopics = [endpointName ['a'] velend] ∧
      w1.urosNode.pubTopics = [] ∧ w1.urosNode.pubServices = [] ∧
      w1.urosNode.calls =
        [NodeCall.publishTopic (endpointName ['a'] posend),
         NodeCall.subscribeTopic (endpointName ['a'] velend),
         NodeCall.publishService (endpointName ['a'] setpenend),
         NodeCall.unpublishTopic (endpointName ['a'] posend),
         NodeCall.unpublishTopic (endpointName ['a'] velend)] ∧
      slotSummary w1.turtles = [(TURTLE_EMPTY, ['a'], 0)] :=
  ⟨_, _, rfl, rfl, rfl, rfl, rfl, rfl, rfl, rfl⟩

/-- C7 (evaluation at the failing inputs): right after initialisation
`turtle_refbypath` of the path `//` takes a reference on slot 0, whose name
is empty, and leaves it EMPTY with `refCnt = 1`; and after a `turtle_spawn`
whose first registration fails, `turtle_refbyname` of the requested name
does the same to the slot that went back to EMPTY with its name kept. -/
theorem lookup_references_empty_slot (cfg : Config) :
    ∃ w0 w1 w2, app_initialize_state 1 = .ok w0 ∧
      World.run cfg w0 [Op.refbypath ['/', '/']] = .ok w1 ∧
      slotSummary w1.turtles = [(TURTLE_EMPTY, [], 1)] ∧
      World.run cfg w0
        [Op.spawn { spawnEnvOk with regPose := false } 1 ['a'] 0 0 0,
         Op.refbyname ['a']] = .ok w2 ∧
      slotSummary w2.turtles = [(TURTLE_EMPTY, ['a'], 1)] :=
  ⟨_, _, _, rfl, rfl, rfl, rfl, rfl⟩

/-- C10 (evaluation at the failing input): after a `turtle_spawn` of the
name `a` whose first registration fails, the slot is EMPTY, unreferenced and
still named `a`; `turtle_refbyname` of `a` then returns this slot, which is
not ALIVE, and raises its `refCnt` to 1, although no ALIVE slot is named
`a`. -/
theorem turtle_refbyname_returns_empty_slot (cfg : Config) :
    ∃ w0 w1 ts, app_initialize_state 1 = .ok w0 ∧
      World.run cfg w0
        [Op.spawn { spawnEnvOk with regPose := false } 1 ['a'] 0 0 0] = .ok w1 ∧
      slotSummary w1.turtles = [(TURTLE_EMPTY, ['a'], 0)] ∧
      turtle_refbyname ['a'] w1.turtles = .ok (some 0, ts) ∧
      slotSummary ts = [(TURTLE_EMPTY, ['a'], 1)] :=
  ⟨_, _, _, rfl, rfl, rfl, rfl, rfl⟩

/-- C8: `turtle_unref` on a slot `t` (slot `i` of the array, lock available
to the caller). With `refCnt = 0`, or with `refCnt = 1` on a slot that is not
DEAD, the call is an assertion failure and yields no state. Otherwise
`refCnt` goes down by exactly one; the status is unchanged when the new count
is not zero and becomes EMPTY when it is zero (the slot was DEAD); the name,
the endpoint strings, the pose and the countdown of the slot are unchanged,
and so is every other slot. -/
theorem turtle_unref_effect (cfg : Config) (w : World) (i : Nat) (t : turtle_t)
    (hslot : w.turtles[i]? = some t) (hlock : t.lock = false) :
    (t.refCnt = 0 ∨ (t.refCnt = 1 ∧ t.status ≠ TURTLE_DEAD) →
      turtle_unref t = .error Fault.assertion ∧
      World.step cfg w (Op.unref i) = .error Fault.assertion) ∧
    (0 < t.refCnt ∧ (t.refCnt = 1 → t.status = TURTLE_DEAD) →
      ∃ t1 w1, turtle_unref t = .ok t1 ∧ World.step cfg w (Op.unref i) = .ok w1 ∧
        t1.refCnt + 1 = t.refCnt ∧
        (t1.refCnt ≠ 0 → t1.status = t.status) ∧
        (t1.refCnt = 0 → t1.status = TURTLE_EMPTY) ∧
        t1.name = t.name ∧ t1.pose = t.pose ∧ t1.countdown = t.countdown ∧
        t1.poseTopic = t.poseTopic ∧ t1.velTopic = t.velTopic ∧
        t1.setpenService = t.setpenService ∧ t1.telabsService = t.telabsService ∧
        t1.telrelService = t.telrelService ∧ t1.id = t.id ∧ t1.lock = t.lock ∧
        w1.turtles[i]? = some t1 ∧
        (∀ j, j ≠ i → w1.turtles[j]? = w.turtles[j]?) ∧
        w1.turtles.length = w.turtles.length ∧
        w1.urosNode = w.urosNode ∧ w1.rosoutQueue = w.rosoutQueue ∧
        w1.turtlesThreadPool = w.turtlesThreadPool ∧
        w1.turtleCanSpawn = w.turtleCanSpawn) := by
  have hstep : ∀ t1, turtle_unref t = .ok t1 → World.step cfg w (Op.unref i) =
      .ok { w with turtles := modifyAt (fun _ => t1) w.turtles i } := by
    intro t1 hu
    simp only [World.step, hslot, hu]
    simp [hlock]
  constructor
  · rintro (h0 | ⟨h1, hs⟩)
    · have hu : turtle_unref t = .error Fault.assertion := by simp [turtle_unref, h0]
      exact ⟨hu, by simp [World.step, hslot, hlock, hu]⟩
    · have hu : turtle_unref t = .error Fault.assertion := by simp [turtle_unref, h1, hs]
      exact ⟨hu, by simp [World.step, hslot, hlock, hu]⟩
  · rintro ⟨hpos, hdead⟩
    by_cases h1 : t.refCnt = 1
    · have hs := hdead h1
      have hu : turtle_unref t =
          .ok { t with refCnt := t.refCnt - 1, status := TURTLE_EMPTY } := by
        simp [turtle_unref, h1, hs]
      refine ⟨_, _, hu, hstep _ hu, by simp only; omega, fun h => ?_, fun _ => rfl,
        rfl, rfl, rfl, rfl, rfl, rfl, rfl, rfl, rfl, rfl,
        modifyAt_getElem?_eq _ _ _ _ hslot, fun j hj => modifyAt_getElem?_ne _ _ _ _ hj,
        modifyAt_length _ _ _, rfl, rfl, rfl, rfl⟩
      simp only at h
      omega
    · have hu : turtle_unref t = .ok { t with refCnt := t.refCnt - 1 } := by
        have h2 : ¬ t.refCnt = 0 := by omega
        have h3 : ¬ t.refCnt - 1 = 0 := by omega
        simp [turtle_unref, h2, h3]
      refine ⟨_, _, hu, hstep _ hu, by simp only; omega, fun _ => rfl, fun h => ?_,
        rfl, rfl, rfl, rfl, rfl, rfl, rfl, rfl, rfl, rfl,
        modifyAt_getElem?_eq _ _ _ _ hslot, fun j hj => modifyAt_getElem?_ne _ _ _ _ hj,
        modifyAt_length _ _ _, rfl, rfl, rfl, rfl⟩
      simp only at h
      omega

theorem turtle_unref_effect_witness :
    sampleDead.lock = false ∧
      ∃ t1, turtle_unref sampleDead = .ok t1 ∧ t1.refCnt + 1 = sampleDead.refCnt ∧
        t1.status = TURTLE_EMPTY ∧ t1.name = sampleDead.name := by
  obtain ⟨t1, _, h1, _, h3, _, h5, h6, _⟩ :=
    (turtle_unref_effect sampleConfig (worldOf [sampleDead]) 0 sampleDead rfl rfl).2
      ⟨by decide, fun _ => rfl⟩
  have h0 : t1.refCnt = 0 := by
    have : sampleDead.refCnt = 1 := rfl
    omega
  exact ⟨rfl, t1, h1, h3, h5 h0, h6⟩

/-- C9: on an ALIVE slot whose lock is available, whatever the collaborator
answers to each call, `turtle_kill` makes the five unregistrations in the
order pose topic (unpublish), velocity topic (unsubscribe), `set_pen`,
`teleport_absolute`, `teleport_relative` services (unpublish service), and
leaves the slot DEAD with an empty name and empty endpoint strings, its
`refCnt`, pose and countdown unchanged. -/
theorem turtle_kill_effect (env : KillEnv) (t : turtle_t) (n : UrosNode)
    (halive : t.status = TURTLE_ALIVE) (hlock : t.lock = false) :
    ∃ t1 n1, turtle_kill env t n = .ok (t1, n1) ∧
      n1.calls = n.calls ++
        [NodeCall.unpublishTopic t.poseTopic, NodeCall.unsubscribeTopic t.velTopic,
         NodeCall.unpublishService t.setpenService,
         NodeCall.unpublishService t.telabsService,
         NodeCall.unpublishService t.telrelService] ∧
      t1.status = TURTLE_DEAD ∧ t1.name = [] ∧ t1.poseTopic = [] ∧ t1.velTopic = [] ∧
      t1.setpenService = [] ∧ t1.telabsService = [] ∧ t1.telrelService = [] ∧
      t1.refCnt = t.refCnt ∧ t1.pose = t.pose ∧ t1.countdown = t.countdown ∧
      t1.id = t.id ∧ t1.lock = t.lock := by
  refine ⟨turtle_kill_cleanup t, turtle_kill_unregister env t n, ?_, ?_,
    rfl, rfl, rfl, rfl, rfl, rfl, rfl, rfl, rfl, rfl, rfl, rfl⟩
  · simp [turtle_kill, halive, hlock]
  · simp [turtle_kill_unregister, urosNodeUnpublishTopic, urosNodeUnsubscribeTopic,
      urosNodeUnpublishService]

theorem turtle_kill_effect_witness :
    sampleAlive.status = TURTLE_ALIVE ∧ sampleAlive.lock = false ∧
      ∃ t1 n1, turtle_kill { killEnvOk with vel := false, telabs := false } sampleAlive
          (worldOf [sampleAlive]).urosNode = .ok (t1, n1) ∧
        n1.calls =
          [NodeCall.unpublishTopic (endpointName ['a'] posend),
           NodeCall.unsubscribeTopic (endpointName ['a'] velend),
           NodeCall.unpublishService (endpointName ['a'] setpenend),
           NodeCall.unpublishService (endpointName ['a'] telabsend),
           NodeCall.unpublishService (endpointName ['a'] telrelend)] ∧
        t1.status = TURTLE_DEAD ∧ t1.name = [] ∧ t1.refCnt = 1 := by
  obtain ⟨t1, n1, h1, h2, h3, h4, _, _, _, _, _, h5, _⟩ :=
    turtle_kill_effect { killEnvOk with vel := false, telabs := false } sampleAlive
      (worldOf [sampleAlive]).urosNode rfl rfl
  exact ⟨rfl, rfl, t1, n1, h1, h2, h3, h4, h5⟩

theorem urosStringCmp_eq_zero (a b : UrosString) : urosStringCmp a b = 0 ↔ a = b := by
  unfold urosStringCmp
  by_cases h : a = b <;> simp [h]

theorem turtle_spawn_pass_found (namep : UrosString) (as : List turtle_t) (e : turtle_t)
    (rest : List turtle_t) (i c : Nat)
    (has : ∀ a ∈ as, a.lock = false ∧ a.status = TURTLE_ALIVE ∧ a.name ≠ namep)
    (hl : e.lock = false) (he : e.status = TURTLE_EMPTY) :
    turtle_spawn_pass namep (as ++ e :: rest) i c =
      ScanPass.found (i + as.length) (c + as.length) := by
  induction as generalizing i c with
  | nil => simp [turtle_spawn_pass, hl, he]
  | cons a as ih =>
    obtain ⟨h1, h2, h3⟩ := has a (List.mem_cons_self _ _)
    have ih2 := ih (i + 1) (c + 1) (fun b hb => has b (List.mem_cons_of_mem _ hb))
    show turtle_spawn_pass namep (a :: (as ++ e :: rest)) i c = _
    simp only [turtle_spawn_pass, h1, h2, urosStringCmp_eq_zero, h3,
      and_false, if_false, Bool.false_eq_true, if_true, reduceCtorEq, List.length_cons]
    rw [ih2, show i + 1 + as.length = i + (as.length + 1) by omega,
      show c + 1 + as.length = c + (as.length + 1) by omega]

theorem turtle_spawn_register_ok (env : SpawnEnv) (namep : UrosString) (n : UrosNode)
    (h : env.registered = true) :
    turtle_spawn_register env namep n = (true, (turtle_spawn_register env namep n).2) := by
  simp only [SpawnEnv.registered, Bool.and_eq_true] at h
  obtain ⟨⟨⟨⟨h1, h2⟩, h3⟩, h4⟩, h5⟩ := h
  simp [turtle_spawn_register, h1, h2, h3, h4, h5]

theorem turtle_spawn_success (cfg : Config) (r : SpawnRequest) (w : World)
    (as : List turtle_t) (e : turtle_t) (rest : List turtle_t)
    (hts : w.turtles = as ++ e :: rest)
    (has : ∀ a ∈ as, a.lock = false ∧ a.status = TURTLE_ALIVE ∧ a.name ≠ r.namep)
    (hl : e.lock = false) (he : e.status = TURTLE_EMPTY)
    (hgate : w.turtleCanSpawn = true) (hgl : w.turtleCanSpawnLock = false)
    (hpool : w.turtlesThreadPool.length < w.turtles.length) (hr : r.served) :
    r.call cfg w = .ok (SpawnExit.spawned as.length,
      { w with
        turtles := as ++
          { turtle_spawn_assign cfg r.env r.namep r.x r.y r.theta e with lock := false } :: rest
        urosNode := (turtle_spawn_register r.env r.namep w.urosNode).2
        turtlesThreadPool := w.turtlesThreadPool ++ [as.length] }) := by
  obtain ⟨hn, hp, halloc, hreg⟩ := hr
  obtain ⟨p, hp2⟩ : ∃ p, r.passes = p + 1 := ⟨r.passes - 1, by omega⟩
  simp only [SpawnEnv.allocated, Bool.and_eq_true] at halloc
  obtain ⟨⟨⟨⟨⟨⟨a1, a2⟩, a3⟩, a4⟩, a5⟩, a6⟩, a7⟩ := halloc
  have hscan : turtle_spawn_scan r.namep (as ++ e :: rest) (p + 1) 0 =
      ScanResult.slot as.length (as ++ { e with lock := true } :: rest) := by
    have hne : ¬ as.length = (as ++ e :: rest).length := by simp
    simp only [turtle_spawn_scan, turtle_spawn_pass_found r.namep as e rest 0 0 has hl he,
      Nat.zero_add, hne, if_false, modifyAt_append]
  have hpool2 : ¬ w.turtlesThreadPool.length ≥ (as ++ e :: rest).length := by
    rw [← hts]; omega
  unfold SpawnRequest.call turtle_spawn
  rw [turtle_spawn_register_ok r.env r.namep w.urosNode hreg]
  simp only [hn, hgate, hgl, hts, hp2, hscan, a1, a2, a3, a4, a5, a6, if_false,
    Bool.false_eq_true, Bool.not_true, Bool.and_self, modifyAt_append, hpool2]
  rfl

theorem filled_spawn (cfg : Config) (N : Nat) (names : List UrosString) (w : World)
    (r : SpawnRequest) (h : Filled N names w) (hr : r.served) (hnew : r.namep ∉ names)
    (hlt : names.length < N) :
    ∃ w1, r.call cfg w = .ok (SpawnExit.spawned names.length, w1) ∧
      Filled N (names ++ [r.namep]) w1 := by
  obtain ⟨as, hts, hnm, has⟩ := h.slots
  have hlen : as.length = names.length := by rw [← hnm, List.length_map]
  obtain ⟨m, hm⟩ : ∃ m, N - names.length = m + 1 := ⟨N - names.length - 1, by omega⟩
  rw [hm, List.range'_succ, List.map_cons] at hts
  have has2 : ∀ a ∈ as, a.lock = false ∧ a.status = TURTLE_ALIVE ∧ a.name ≠ r.namep := by
    intro a ha
    refine ⟨(has a ha).1, (has a ha).2, ?_⟩
    intro heq
    apply hnew
    rw [← hnm, ← heq]
    exact List.mem_map_of_mem _ ha
  have hpool : w.turtlesThreadPool.length < w.turtles.length := by
    rw [h.pool, hts]
    simp
    omega
  have hcall := turtle_spawn_success cfg r w as (turtle_init names.length) _ hts has2 rfl rfl
    h.gate h.gateLock hpool hr
  rw [hlen] at hcall
  refine ⟨_, hcall, ?_⟩
  obtain ⟨_, _, halloc, _⟩ := hr
  simp only [SpawnEnv.allocated, Bool.and_eq_true] at halloc
  have hslot : r.env.allocSlotName = true := halloc.2
  exact
    { slots := by
        refine ⟨as ++ [{ turtle_spawn_assign cfg r.env r.namep r.x r.y r.theta
          (turtle_init names.length) with lock := false }], ?_, ?_, ?_⟩
        · simp only [List.length_append, List.length_singleton, List.append_assoc,
            List.singleton_append]
          rw [show N - (names.length + 1) = m by omega]
        · simp [hnm, turtle_spawn_assign, urosStringClone, hslot]
        · intro a ha
          rcases List.mem_append.mp ha with ha | ha
          · exact has a ha
          · rw [List.mem_singleton] at ha
            subst ha
            exact ⟨rfl, rfl⟩
      gate := h.gate
      gateLock := h.gateLock
      pool := by simp [h.pool]
      le := by simp; omega }

theorem filled_run (cfg : Config) (N : Nat) (rs : List SpawnRequest) :
    ∀ (names : List UrosString) (w : World), Filled N names w →
      (∀ q ∈ rs, q.served) → (names ++ rs.map fun q => q.namep).Nodup →
      names.length + rs.length ≤ N →
      ∃ w1, World.run cfg w (rs.map SpawnRequest.op) = .ok w1 ∧
        Filled N (names ++ rs.map fun q => q.namep) w1 := by
  induction rs with
  | nil =>
    intro names w h _ _ _
    exact ⟨w, rfl, by simpa using h⟩
  | cons r rs ih =>
    intro names w h hserved hnodup hlen
    simp only [List.length_cons] at hlen
    simp only [List.map_cons] at hnodup
    have hnew : r.namep ∉ names := by
      intro hmem
      have := List.nodup_append.mp hnodup
      exact this.2.2 hmem (List.mem_cons_self _ _)
    obtain ⟨w1, hcall, hfilled⟩ := filled_spawn cfg N names w r h
      (hserved r (List.mem_cons_self _ _)) hnew (by omega)
    have hnodup2 : ((names ++ [r.namep]) ++ rs.map fun q => q.namep).Nodup := by
      simpa using hnodup
    obtain ⟨w2, hrun, hfilled2⟩ := ih (names ++ [r.namep]) w1 hfilled
      (fun q hq => hserved q (List.mem_cons_of_mem _ hq)) hnodup2 (by simp; omega)
    refine ⟨w2, ?_, by simpa using hfilled2⟩
    have hstep : World.step cfg w r.op = .ok w1 := by
      unfold SpawnRequest.call at hcall
      simp only [SpawnRequest.op, World.step, hcall]
    simp only [List.map_cons, World.run, hstep, hrun]

/-! ## What a successful `turtle_spawn` leaves in its slot -/

theorem c_min_eq_min (a b : ℚ) : c_min a b = min a b := by
  unfold c_min
  rw [min_def]

theorem c_max_eq_max (a b : ℚ) : c_max a b = max a b := by
  unfold c_max
  rw [max_def]
  by_cases h : a ≤ b
  · by_cases h2 : a ≥ b
    · have : a = b := le_antisymm h h2
      simp [this]
    · simp [h, h2]
  · have h2 : a ≥ b := le_of_lt (not_le.mp h)
    simp [h, h2]

theorem theta_add_loop_spec (P : ℚ) (hP : 0 < P) (theta : ℚ) :
    0 ≤ theta_add_loop P hP theta ∧ (theta < 0 → theta_add_loop P hP theta < P) ∧
      (0 ≤ theta → theta_add_loop P hP theta = theta) ∧
      ∃ k : ℕ, theta_add_loop P hP theta = theta + k * P := by
  induction theta using theta_add_loop.induct P hP with
  | case1 theta hneg ih =>
    rw [theta_add_loop, if_pos hneg]
    obtain ⟨h1, h2, h3, k, hk⟩ := ih
    refine ⟨h1, fun _ => ?_, fun h => absurd hneg (not_lt.mpr h), k + 1, ?_⟩
    · by_cases hc : theta + P < 0
      · exact h2 hc
      · rw [h3 (not_lt.mp hc)]; linarith
    · rw [hk]; push_cast; ring
  | case2 theta hpos =>
    rw [theta_add_loop, if_neg hpos]
    exact ⟨not_lt.mp hpos, fun h => absurd h hpos, fun _ => rfl, 0, by simp⟩

theorem theta_sub_loop_spec (P : ℚ) (hP : 0 < P) (theta : ℚ) :
    theta_sub_loop P hP theta < P ∧ (0 ≤ theta → 0 ≤ theta_sub_loop P hP theta) ∧
      (theta < P → theta_sub_loop P hP theta = theta) ∧
      ∃ k : ℕ, theta_sub_loop P hP theta = theta - k * P := by
  induction theta using theta_sub_loop.induct P hP with
  | case1 theta hge ih =>
    rw [theta_sub_loop, if_pos hge]
    obtain ⟨h1, h2, h3, k, hk⟩ := ih
    refine ⟨h1, fun _ => h2 (by linarith), fun h => absurd hge (not_le.mpr h), k + 1, ?_⟩
    rw [hk]; push_cast; ring
  | case2 theta hlt =>
    rw [theta_sub_loop, if_neg hlt]
    exact ⟨not_le.mp hlt, fun h => h, fun _ => rfl, 0, by simp⟩

theorem theta_normalised (P : ℚ) (hP : 0 < P) (theta : ℚ) :
    0 ≤ theta_sub_loop P hP (theta_add_loop P hP theta) ∧
      theta_sub_loop P hP (theta_add_loop P hP theta) < P ∧
      ∃ k : ℤ, theta_sub_loop P hP (theta_add_loop P hP theta) = theta + k * P := by
  obtain ⟨h1, _, _, k1, hk1⟩ := theta_add_loop_spec P hP theta
  obtain ⟨h2, h3, _, k2, hk2⟩ := theta_sub_loop_spec P hP (theta_add_loop P hP theta)
  refine ⟨h3 h1, h2, (k1 : ℤ) - (k2 : ℤ), ?_⟩
  rw [hk2, hk1]
  push_cast
  ring

theorem turtle_spawn_pass_found_slot (namep : UrosString) (ts : List turtle_t)
    (i c j n : Nat) (h : turtle_spawn_pass namep ts i c = ScanPass.found j n) :
    ∃ t, i ≤ j ∧ ts[j - i]? = some t ∧ t.status = TURTLE_EMPTY ∧ t.lock = false := by
  induction ts generalizing i c with
  | nil => simp [turtle_spawn_pass] at h
  | cons a ts ih =>
    simp only [turtle_spawn_pass] at h
    by_cases hl : a.lock = true
    · simp [hl] at h
    have hl2 : a.lock = false := by simpa using hl
    by_cases hc : a.status = TURTLE_ALIVE ∧ urosStringCmp a.name namep = 0
    · simp [hl2, hc] at h
    by_cases he : a.status = TURTLE_EMPTY
    · simp [hl2, he] at h
      obtain ⟨hij, _⟩ := h
      subst hij
      exact ⟨a, le_refl _, by simp, he, hl2⟩
    · rw [if_neg hl, if_neg hc, if_neg he] at h
      obtain ⟨t, h1, h2, h3, h4⟩ := ih (i + 1) _ h
      refine ⟨t, by omega, ?_, h3, h4⟩
      rw [show j - i = (j - (i + 1)) + 1 by omega]
      simpa using h2

theorem turtle_spawn_scan_slot (namep : UrosString) (ts : List turtle_t) (passes c j : Nat)
    (ts1 : List turtle_t) (h : turtle_spawn_scan namep ts passes c = ScanResult.slot j ts1) :
    ∃ t, ts[j]? = some t ∧ t.status = TURTLE_EMPTY ∧ t.lock = false ∧
      ts1 = modifyAt (fun t => { t with lock := true }) ts j := by
  induction passes generalizing c with
  | zero => simp [turtle_spawn_scan] at h
  | succ p ih =>
    simp only [turtle_spawn_scan] at h
    cases hp : turtle_spawn_pass namep ts 0 c with
    | conflict => simp [hp] at h
    | blocked => simp [hp] at h
    | found i n =>
      simp only [hp] at h
      by_cases hn : n = ts.length
      · simp [hn] at h
      · simp only [hn, if_false, ScanResult.slot.injEq] at h
        obtain ⟨t, _, h2, h3, h4⟩ := turtle_spawn_pass_found_slot namep ts 0 c i n hp
        obtain ⟨hij, hts⟩ := h
        subst hij
        exact ⟨t, by simpa using h2, h3, h4, hts.symm⟩
    | done n =>
      simp only [hp] at h
      by_cases hn : n = ts.length
      · simp [hn] at h
      · simp only [hn, if_false] at h
        exact ih n h

theorem turtle_spawn_scan_null_exit (namep : UrosString) (ts : List turtle_t)
    (passes c : Nat) (e : SpawnExit) (ts1 : List turtle_t)
    (h : turtle_spawn_scan namep ts passes c = ScanResult.null e ts1) :
    e = SpawnExit.nameConflict ∨ e = SpawnExit.poolExhausted := by
  induction passes generalizing c with
  | zero => simp [turtle_spawn_scan] at h
  | succ p ih =>
    simp only [turtle_spawn_scan] at h
    cases hp : turtle_spawn_pass namep ts 0 c with
    | conflict =>
      simp only [hp, ScanResult.null.injEq] at h
      exact Or.inl h.1.symm
    | blocked => simp [hp] at h
    | found i n =>
      simp only [hp] at h
      by_cases hn : n = ts.length
      · simp only [hn, if_true, ScanResult.null.injEq] at h
        exact Or.inr h.1.symm
      · simp [hn] at h
    | done n =>
      simp only [hp] at h
      by_cases hn : n = ts.length
      · simp only [hn, if_true, ScanResult.null.injEq] at h
        exact Or.inr h.1.symm
      · simp only [hn, if_false] at h
        exact ih n h

theorem turtle_spawn_spawned (cfg : Config) (env : SpawnEnv) (passes : Nat)
    (namep : UrosString) (x y theta : ℚ) (w w1 : World) (i : Nat)
    (h : turtle_spawn cfg env passes namep x y theta w = .ok (SpawnExit.spawned i, w1)) :
    ∃ t, w.turtles[i]? = some t ∧ t.status = TURTLE_EMPTY ∧ t.lock = false ∧
      w1.turtles[i]? =
        some { turtle_spawn_assign cfg env namep x y theta t with lock := false } ∧
      (∀ j, j ≠ i → w1.turtles[j]? = w.turtles[j]?) ∧
      w1.turtles.length = w.turtles.length := by
  unfold turtle_spawn at h
  by_cases hn : namep = []
  · simp [hn] at h
  by_cases hgl : w.turtleCanSpawnLock = true
  · simp [hn, hgl] at h
  by_cases hg : w.turtleCanSpawn = true
  swap
  · simp [hn, hgl, hg] at h
  simp only [hn, hgl, hg, if_false, Bool.not_true, Bool.false_eq_true] at h
  cases hscan : turtle_spawn_scan namep w.turtles passes 0 with
  | blocked => simp [hscan] at h
  | retrying => simp [hscan] at h
  | null e ts =>
    simp only [hscan, Except.ok.injEq, Prod.mk.injEq] at h
    obtain ⟨he, _⟩ := h
    have hnull := turtle_spawn_scan_null_exit namep w.turtles passes 0 e ts hscan
    rw [he] at hnull
    simp at hnull
  | slot k ts =>
    obtain ⟨t, h1, h2, h3, h4⟩ := turtle_spawn_scan_slot namep w.turtles passes 0 k ts hscan
    simp only [hscan] at h
    by_cases ha : env.allocName = true
    swap
    · simp [ha] at h
    simp only [ha, Bool.not_true, Bool.false_eq_true, if_false] at h
    cases hb : (env.allocPos && env.allocVel && env.allocSetpen && env.allocTelabs
        && env.allocTelrel)
    · rw [hb] at h
      simp at h
    rw [hb] at h
    simp only [Bool.not_true, Bool.false_eq_true, if_false] at h
    cases hreg : turtle_spawn_register env namep w.urosNode with
    | mk ok n =>
      cases ok with
      | false => simp [hreg] at h
      | true =>
        simp only [hreg] at h
        by_cases hpool : w.turtlesThreadPool.length ≥ w.turtles.length
        · simp [hpool] at h
        · simp only [hpool, if_false, Except.ok.injEq, Prod.mk.injEq,
            SpawnExit.spawned.injEq] at h
          obtain ⟨hk, hw⟩ := h
          subst hk
          subst hw
          subst h4
          have e1 := modifyAt_getElem?_eq (fun t => { t with lock := true }) w.turtles k t h1
          have e2 := modifyAt_getElem?_eq (turtle_spawn_assign cfg env namep x y theta) _ k _ e1
          have e3 := modifyAt_getElem?_eq (fun t => { t with lock := false }) _ k _ e2
          refine ⟨t, h1, h2, h3, e3, ?_, ?_⟩
          · intro j hj
            simp only
            rw [modifyAt_getElem?_ne _ _ _ _ hj, modifyAt_getElem?_ne _ _ _ _ hj,
              modifyAt_getElem?_ne _ _ _ _ hj]
          · simp only [modifyAt_length]

/-- The slot a successful `turtle_spawn` returns: it was EMPTY; afterwards it
is ALIVE with one reference, its name is the result of the second
`urosStringClone`, its position is the requested one clamped to the sandbox,
its angle lies in `[0, _2PI)` and differs from the requested one by a
multiple of `_2PI`, its velocities and countdown are zero; every other slot
is as before. -/
theorem turtle_spawn_spawned_slot (cfg : Config) (env : SpawnEnv) (passes : Nat)
    (namep : UrosString) (x y theta : ℚ) (w w1 : World) (i : Nat)
    (h : turtle_spawn cfg env passes namep x y theta w = .ok (SpawnExit.spawned i, w1)) :
    ∃ t t1, w.turtles[i]? = some t ∧ t.status = TURTLE_EMPTY ∧ w1.turtles[i]? = some t1 ∧
      t1.status = TURTLE_ALIVE ∧ t1.refCnt = 1 ∧
      t1.name = urosStringClone env.allocSlotName namep ∧
      t1.pose.x = min (max 0 x) cfg.SANDBOX_WIDTH ∧
      t1.pose.y = min (max 0 y) cfg.SANDBOX_HEIGHT ∧
      0 ≤ t1.pose.theta ∧ t1.pose.theta < cfg._2PI ∧
      (∃ k : ℤ, t1.pose.theta = theta + k * cfg._2PI) ∧
      t1.pose.linear_velocity = 0 ∧ t1.pose.angular_velocity = 0 ∧ t1.countdown = 0 ∧
      t1.lock = false ∧
      (∀ j, j ≠ i → w1.turtles[j]? = w.turtles[j]?) := by
  obtain ⟨t, h1, h2, _, h4, h5, _⟩ := turtle_spawn_spawned cfg env passes namep x y theta w w1 i h
  obtain ⟨n1, n2, n3⟩ := theta_normalised cfg._2PI cfg._2PI_pos theta
  refine ⟨t, _, h1, h2, h4, rfl, rfl, rfl, ?_, ?_, n1, n2, n3, rfl, rfl, rfl, rfl, h5⟩
  · simp only [turtle_spawn_assign, c_min_eq_min, c_max_eq_max]
  · simp only [turtle_spawn_assign, c_min_eq_min, c_max_eq_max]

/-! ## Filling the pool -/

theorem pathMatches_iff (topicName name : UrosString) (h : topicName.head? = some '/') :
    pathMatches topicName name = true ↔ IsPathOf topicName name := by
  cases topicName with
  | nil => simp at h
  | cons c p =>
    simp only [List.head?_cons, Option.some.injEq] at h
    subst h
    unfold pathMatches IsPathOf
    simp only [List.length_cons, List.drop_succ_cons, List.drop_zero, Bool.and_eq_true,
      decide_eq_true_eq, beq_iff_eq, List.cons.injEq, true_and]
    constructor
    · rintro ⟨⟨hlen, hslash⟩, htake⟩
      have hlen2 : name.length < p.length := by omega
      rw [show 1 + name.length = name.length + 1 by omega, List.getD_cons_succ] at hslash
      refine ⟨p.drop (name.length + 1), ?_⟩
      have h1 : p = p.take name.length ++ p.drop name.length := (List.take_append_drop _ _).symm
      have h2 : p.drop name.length = p[name.length] :: p.drop (name.length + 1) :=
        List.drop_eq_getElem_cons hlen2
      have h3 : p[name.length] = '/' := by
        rw [List.getD_eq_getElem?_getD, List.getElem?_eq_getElem hlen2] at hslash
        simpa using hslash
      rw [h2, h3, htake] at h1
      exact h1
    · rintro ⟨rest, hp⟩
      subst hp
      refine ⟨⟨by simp; omega, ?_⟩, by simp⟩
      rw [show 1 + name.length = name.length + 1 by omega, List.getD_cons_succ,
        List.getD_eq_getElem?_getD, List.getElem?_append_right (Nat.le_refl _)]
      simp

theorem turtle_refbypath_loop_spec (p : UrosString) (ts : List turtle_t) (k : Nat)
    (hlock : ∀ t ∈ ts, t.lock = false) :
    ∃ r ts1, turtle_refbypath_loop p ts k = .ok (r, ts1) ∧
      (∀ i, r = some i → k ≤ i ∧ ∃ t, ts[i - k]? = some t ∧ pathMatches p t.name = true ∧
        (∀ j u, j < i - k → ts[j]? = some u → pathMatches p u.name = false) ∧
        ts1 = modifyAt addRef ts (i - k)) ∧
      (r = none → (∀ t ∈ ts, pathMatches p t.name = false) ∧ ts1 = ts) := by
  induction ts generalizing k with
  | nil =>
    exact ⟨none, [], rfl, fun i h => by simp at h, fun _ => ⟨by simp, rfl⟩⟩
  | cons a ts ih =>
    have hl : a.lock = false := hlock a (List.mem_cons_self _ _)
    by_cases hm : pathMatches p a.name = true
    · refine ⟨some k, addRef a :: ts, by simp [turtle_refbypath_loop, hl, hm, addRef], ?_,
        fun h => by simp at h⟩
      intro i hi
      simp only [Option.some.injEq] at hi
      subst hi
      refine ⟨le_refl _, a, by simp, hm, fun j u hj => by omega, ?_⟩
      simp [modifyAt]
    · have hm2 : pathMatches p a.name = false := by simpa using hm
      obtain ⟨r, ts1, hrun, hsome, hnone⟩ :=
        ih (k + 1) (fun t ht => hlock t (List.mem_cons_of_mem _ ht))
      refine ⟨r, a :: ts1, by simp [turtle_refbypath_loop, hl, hm2, hrun], ?_, ?_⟩
      · intro i hi
        obtain ⟨hk, t, h1, h2, h3, h4⟩ := hsome i hi
        refine ⟨by omega, t, ?_, h2, ?_, ?_⟩
        · rw [show i - k = (i - (k + 1)) + 1 by omega]
          simpa using h1
        · intro j u hj hu
          cases j with
          | zero =>
            simp only [List.getElem?_cons_zero, Option.some.injEq] at hu
            rw [← hu]
            exact hm2
          | succ j =>
            simp only [List.getElem?_cons_succ] at hu
            exact h3 j u (by omega) hu
        · rw [show i - k = (i - (k + 1)) + 1 by omega, h4]
          rfl
      · intro hr
        obtain ⟨h1, h2⟩ := hnone hr
        refine ⟨?_, by rw [h2]⟩
        intro t ht
        rcases List.mem_cons.mp ht with rfl | ht
        · exact hm2
        · exact h1 t ht

/-- C11: for every registry whose slot locks are free and every path `p`
that begins with a slash, `turtle_refbypath(p)` returns. When it returns slot
`i`, the path is a slash, the whole name of slot `i`, a slash and a
remainder; no slot of lower index has that property; the registry is the
former one with the `refCnt` of slot `i` raised by one. When it returns
`NULL`, no slot has the property and the registry is unchanged. A path that
starts with `/turtle10/` is not of that form for the name `turtle1`. -/
theorem turtle_refbypath_effect (p : UrosString) (ts : List turtle_t)
    (hp : p.head? = some '/') (hlock : ∀ t ∈ ts, t.lock = false) :
    (∃ r ts1, turtle_refbypath p ts = .ok (r, ts1) ∧
      (∀ i, r = some i → ∃ t, ts[i]? = some t ∧ IsPathOf p t.name ∧
        (∀ j u, j < i → ts[j]? = some u → ¬ IsPathOf p u.name) ∧
        ts1 = modifyAt addRef ts i ∧ ts1[i]? = some (addRef t) ∧
        (∀ j, j ≠ i → ts1[j]? = ts[j]?)) ∧
      (r = none → (∀ t ∈ ts, ¬ IsPathOf p t.name) ∧ ts1 = ts)) ∧
    (∀ rest : UrosString,
      ¬ IsPathOf (['/', 't', 'u', 'r', 't', 'l', 'e', '1', '0', '/'] ++ rest) turtle1) := by
  constructor
  · obtain ⟨r, ts1, hrun, hsome, hnone⟩ := turtle_refbypath_loop_spec p ts 0 hlock
    have hne : p ≠ [] := by
      intro h
      rw [h] at hp
      simp at hp
    refine ⟨r, ts1, by simp [turtle_refbypath, hne, hp, hrun], ?_, ?_⟩
    · intro i hi
      obtain ⟨_, t, h1, h2, h3, h4⟩ := hsome i hi
      simp only [Nat.sub_zero] at h1 h3 h4
      refine ⟨t, h1, (pathMatches_iff p t.name hp).mp h2, ?_, h4, ?_, ?_⟩
      · intro j u hj hu hpath
        have := h3 j u hj hu
        rw [(pathMatches_iff p u.name hp).mpr hpath] at this
        simp at this
      · rw [h4]
        exact modifyAt_getElem?_eq _ _ _ _ h1
      · intro j hj
        rw [h4]
        exact modifyAt_getElem?_ne _ _ _ _ hj
    · intro hr
      obtain ⟨h1, h2⟩ := hnone hr
      refine ⟨?_, h2⟩
      intro t ht hpath
      have := h1 t ht
      rw [(pathMatches_iff p t.name hp).mpr hpath] at this
      simp at this
  · rintro rest ⟨rest2, h⟩
    simp [turtle1] at h

theorem turtle_refbypath_effect_witness :
    ∃ ts1, turtle_refbypath (endpointName ['a'] posend) [sampleDead, sampleAlive] =
        .ok (some 1, ts1) ∧
      ts1 = modifyAt addRef [sampleDead, sampleAlive] 1 := by
  obtain ⟨⟨r, ts1, hrun, hsome, hnone⟩, _⟩ :=
    turtle_refbypath_effect (endpointName ['a'] posend) [sampleDead, sampleAlive] rfl
      (by decide)
  have hr : r = some 1 := by
    have h2 : turtle_refbypath (endpointName ['a'] posend) [sampleDead, sampleAlive] =
        .ok (some 1, modifyAt addRef [sampleDead, sampleAlive] 1) := rfl
    rw [h2] at hrun
    simp only [Except.ok.injEq, Prod.mk.injEq] at hrun
    exact hrun.1.symm
  obtain ⟨_, _, _, _, h4, _⟩ := hsome 1 hr
  rw [hr] at hrun
  exact ⟨ts1, hrun, h4⟩

/-! ## The integration tick -/

theorem turtle_brain_step_alive (cfg : Config) (msgp : Nat) (t : turtle_t) (q : fifo_t)
    (halive : t.status = TURTLE_ALIVE) (hlock : t.lock = false) :
    turtle_brain_step cfg msgp t q =
      match turtle_brain_tick cfg msgp t q with
      | .error e => .error e
      | .ok (t1, q1) => .ok (t1, q1, false) := by
  simp [turtle_brain_step, halive, hlock]

theorem turtle_brain_tick_moving (cfg : Config) (msgp : Nat) (t t1 : turtle_t)
    (q q1 : fifo_t) (hc : 0 < t.countdown)
    (h : turtle_brain_tick cfg msgp t q = .ok (t1, q1)) :
    t1 = turtle_brain_integrate cfg t ∧
      ((hitTheWall cfg (turtle_brain_unclamped cfg t).1 (turtle_brain_unclamped cfg t).2 = false
          ∧ q1 = q) ∨
        (hitTheWall cfg (turtle_brain_unclamped cfg t).1 (turtle_brain_unclamped cfg t).2 = true
          ∧ fifo_enqueue q msgp = .ok q1)) := by
  unfold turtle_brain_tick at h
  rw [if_pos hc] at h
  cases hw : hitTheWall cfg (turtle_brain_unclamped cfg t).1 (turtle_brain_unclamped cfg t).2
  · rw [hw] at h
    simp only [Bool.false_eq_true, if_false, Except.ok.injEq, Prod.mk.injEq] at h
    exact ⟨h.1.symm, Or.inl ⟨rfl, h.2.symm⟩⟩
  · rw [hw] at h
    simp only [if_true] at h
    unfold rosout_post at h
    by_cases hm : msgp = 0
    · simp [hm] at h
    · rw [if_neg hm] at h
      cases he : fifo_enqueue q msgp with
      | error e => rw [he] at h; simp at h
      | ok q2 =>
        rw [he] at h
        simp only [Except.ok.injEq, Prod.mk.injEq] at h
        exact ⟨h.1.symm, Or.inr ⟨rfl, by rw [h.2]⟩⟩

theorem turtle_brain_tick_runs (cfg : Config) (msgp : Nat) (t : turtle_t) (q : fifo_t)
    (hroom : hitTheWall cfg (turtle_brain_unclamped cfg t).1
        (turtle_brain_unclamped cfg t).2 = false ∨
      (msgp ≠ 0 ∧ q.freeSem ≠ 0 ∧ q.slotsMtx = false)) :
    ∃ t1 q1, turtle_brain_tick cfg msgp t q = .ok (t1, q1) := by
  unfold turtle_brain_tick
  by_cases hc : 0 < t.countdown
  · rw [if_pos hc]
    cases hw : hitTheWall cfg (turtle_brain_unclamped cfg t).1 (turtle_brain_unclamped cfg t).2
    · simp only [Bool.false_eq_true, if_false]
      exact ⟨_, _, rfl⟩
    · rcases hroom with h | ⟨h1, h2, h3⟩
      · rw [hw] at h
        simp at h
      · simp only [if_true, rosout_post, fifo_enqueue, h1, h2, h3, if_false,
          Bool.false_eq_true]
        exact ⟨_, _, rfl⟩
  · rw [if_neg hc]
    exact ⟨_, _, rfl⟩

theorem clamp_in_range (v hi : ℚ) (h : 0 ≤ hi) :
    0 ≤ c_min (c_max 0 v) hi ∧ c_min (c_max 0 v) hi ≤ hi := by
  rw [c_min_eq_min, c_max_eq_max]
  exact ⟨le_min (le_max_left _ _) h, min_le_right _ _⟩

theorem clamp_of_in_range (v hi : ℚ) (h0 : 0 ≤ v) (h1 : v ≤ hi) :
    c_min (c_max 0 v) hi = v := by
  rw [c_min_eq_min, c_max_eq_max, max_eq_right h0, min_eq_left h1]

theorem turtle_brain_integrate_inSandbox (cfg : Config) (t : turtle_t)
    (hW : 0 ≤ cfg.SANDBOX_WIDTH) (hH : 0 ≤ cfg.SANDBOX_HEIGHT) :
    inSandbox cfg (turtle_brain_integrate cfg t).pose := by
  unfold inSandbox turtle_brain_integrate
  exact ⟨(clamp_in_range _ _ hW).1, (clamp_in_range _ _ hW).2,
    (clamp_in_range _ _ hH).1, (clamp_in_range _ _ hH).2⟩

theorem turtle_brain_step_idle (cfg : Config) (msgp : Nat) (t : turtle_t) (q : fifo_t)
    (halive : t.status = TURTLE_ALIVE) (hlock : t.lock = false) (hc : t.countdown = 0) :
    turtle_brain_step cfg msgp t q =
      .ok ({ t with pose := { t.pose with linear_velocity := 0, angular_velocity := 0 } },
        q, false) := by
  rw [turtle_brain_step_alive cfg msgp t q halive hlock]
  simp [turtle_brain_tick, hc]

/-- C17: on an ALIVE slot with `countdown = 0` (its lock free for the
thread), one turn of `turtle_brain_thread` returns, sets both velocities to
zero, leaves `x`, `y`, `theta`, the countdown, the status, `refCnt`, the name
and the other fields unchanged, and leaves the `/rosout` queue as it was: no
warning is posted. -/
theorem turtle_brain_tick_idle (cfg : Config) (msgp : Nat) (t : turtle_t) (q : fifo_t)
    (halive : t.status = TURTLE_ALIVE) (hlock : t.lock = false) (hc : t.countdown = 0) :
    ∃ t1, turtle_brain_step cfg msgp t q = .ok (t1, q, false) ∧
      t1.pose.linear_velocity = 0 ∧ t1.pose.angular_velocity = 0 ∧
      t1.pose.x = t.pose.x ∧ t1.pose.y = t.pose.y ∧ t1.pose.theta = t.pose.theta ∧
      t1.countdown = t.countdown ∧ t1.status = t.status ∧ t1.refCnt = t.refCnt ∧
      t1.name = t.name ∧ t1.poseTopic = t.poseTopic ∧ t1.velTopic = t.velTopic ∧
      t1.setpenService = t.setpenService ∧ t1.telabsService = t.telabsService ∧
      t1.telrelService = t.telrelService ∧ t1.id = t.id ∧ t1.lock = t.lock := by
  refine ⟨{ t with pose := { t.pose with linear_velocity := 0, angular_velocity := 0 } },
    turtle_brain_step_idle cfg msgp t q halive hlock hc,
    rfl, rfl, rfl, rfl, rfl, rfl, rfl, rfl, rfl, rfl, rfl, rfl, rfl, rfl, rfl, rfl⟩

theorem turtle_brain_tick_idle_witness :
    ∃ t1, turtle_brain_step sampleConfig 1 sampleAlive (worldOf []).rosoutQueue =
        .ok (t1, (worldOf []).rosoutQueue, false) ∧
      t1.pose.linear_velocity = 0 ∧ t1.pose.x = sampleAlive.pose.x := by
  obtain ⟨t1, h1, h2, _, h3, _⟩ :=
    turtle_brain_tick_idle sampleConfig 1 sampleAlive (worldOf []).rosoutQueue rfl rfl rfl
  exact ⟨t1, h1, h2, h3⟩

/-- C13: with a sandbox of non-negative width and height, on an ALIVE slot
whose lock is free: with `countdown > 0`, whatever the velocities and the
angle, every turn of `turtle_brain_thread` that returns leaves the position
inside the sandbox, and the turn does return when no warning has to be posted
or when the `/rosout` queue can take the message; with `countdown = 0` the
turn returns and leaves a position that was inside the sandbox inside it. -/
theorem turtle_brain_tick_in_sandbox (cfg : Config) (msgp : Nat) (t : turtle_t)
    (q : fifo_t) (hW : 0 ≤ cfg.SANDBOX_WIDTH) (hH : 0 ≤ cfg.SANDBOX_HEIGHT)
    (halive : t.status = TURTLE_ALIVE) (hlock : t.lock = false) :
    (0 < t.countdown →
      (∀ t1 q1 b, turtle_brain_step cfg msgp t q = .ok (t1, q1, b) →
        inSandbox cfg t1.pose) ∧
      (hitTheWall cfg (turtle_brain_unclamped cfg t).1
          (turtle_brain_unclamped cfg t).2 = false ∨
        (msgp ≠ 0 ∧ q.freeSem ≠ 0 ∧ q.slotsMtx = false) →
        ∃ t1 q1, turtle_brain_step cfg msgp t q = .ok (t1, q1, false) ∧
          inSandbox cfg t1.pose)) ∧
    (t.countdown = 0 → inSandbox cfg t.pose →
      ∃ t1, turtle_brain_step cfg msgp t q = .ok (t1, q, false) ∧ inSandbox cfg t1.pose) := by
  have hstep := turtle_brain_step_alive cfg msgp t q halive hlock
  refine ⟨fun hc => ⟨?_, ?_⟩, ?_⟩
  · intro t1 q1 b h
    rw [hstep] at h
    cases htick : turtle_brain_tick cfg msgp t q with
    | error e => rw [htick] at h; simp at h
    | ok r =>
      obtain ⟨t2, q2⟩ := r
      rw [htick] at h
      simp only [Except.ok.injEq, Prod.mk.injEq] at h
      obtain ⟨h1, _⟩ := turtle_brain_tick_moving cfg msgp t t2 q q2 hc htick
      rw [← h.1, h1]
      exact turtle_brain_integrate_inSandbox cfg t hW hH
  · intro hroom
    obtain ⟨t1, q1, htick⟩ := turtle_brain_tick_runs cfg msgp t q hroom
    obtain ⟨h1, _⟩ := turtle_brain_tick_moving cfg msgp t t1 q q1 hc htick
    refine ⟨t1, q1, by rw [hstep, htick], ?_⟩
    rw [h1]
    exact turtle_brain_integrate_inSandbox cfg t hW hH
  · intro hc hin
    exact ⟨_, turtle_brain_step_idle cfg msgp t q halive hlock hc, hin⟩

theorem turtle_brain_tick_in_sandbox_witness :
    0 < sampleAtWall.countdown ∧
      ∃ t1 q1, turtle_brain_step sampleConfig 1 sampleAtWall (worldOf []).rosoutQueue =
        .ok (t1, q1, false) ∧ inSandbox sampleConfig t1.pose :=
  ⟨by decide,
    ((turtle_brain_tick_in_sandbox sampleConfig 1 sampleAtWall (worldOf []).rosoutQueue
      (by norm_num [sampleConfig]) (by norm_num [sampleConfig]) rfl rfl).1 (by decide)).2
      (Or.inr ⟨by decide, by decide, rfl⟩)⟩

/-- C14: `pose.theta` lies in `[0, _2PI)` after `turtle_init`; in the slot
returned by every successful `turtle_spawn`, whatever the requested angle;
and after every turn of `turtle_brain_thread` that starts from an angle in
that range, whatever the angular velocity (such a turn returns when no
warning has to be posted or the `/rosout` queue can take it). Both
normalisation loops end for every input: the first after some number `k` of
additions with a result that is not negative, the second after some number
`k` of subtractions with a result below `_2PI`. -/
theorem theta_always_normalised (cfg : Config) :
    (∀ id, 0 ≤ (turtle_init id).pose.theta ∧ (turtle_init id).pose.theta < cfg._2PI) ∧
    (∀ env passes namep x y theta w w1 i,
      turtle_spawn cfg env passes namep x y theta w = .ok (SpawnExit.spawned i, w1) →
      ∃ t1, w1.turtles[i]? = some t1 ∧ 0 ≤ t1.pose.theta ∧ t1.pose.theta < cfg._2PI) ∧
    (∀ msgp t q, 0 ≤ t.pose.theta → t.pose.theta < cfg._2PI →
      (∀ t1 q1 b, turtle_brain_step cfg msgp t q = .ok (t1, q1, b) →
        0 ≤ t1.pose.theta ∧ t1.pose.theta < cfg._2PI) ∧
      (t.status = TURTLE_ALIVE → t.lock = false →
        (hitTheWall cfg (turtle_brain_unclamped cfg t).1
            (turtle_brain_unclamped cfg t).2 = false ∨
          (msgp ≠ 0 ∧ q.freeSem ≠ 0 ∧ q.slotsMtx = false)) →
        ∃ t1 q1, turtle_brain_step cfg msgp t q = .ok (t1, q1, false))) ∧
    (∀ theta, ∃ k : ℕ,
      theta_add_loop cfg._2PI cfg._2PI_pos theta = theta + k * cfg._2PI ∧
      0 ≤ theta_add_loop cfg._2PI cfg._2PI_pos theta) ∧
    (∀ theta, ∃ k : ℕ,
      theta_sub_loop cfg._2PI cfg._2PI_pos theta = theta - k * cfg._2PI ∧
      theta_sub_loop cfg._2PI cfg._2PI_pos theta < cfg._2PI) := by
  refine ⟨fun id => ⟨le_refl _, cfg._2PI_pos⟩, ?_, ?_, ?_, ?_⟩
  · intro env passes namep x y theta w w1 i h
    obtain ⟨_, t1, _, _, h3, _, _, _, _, _, h4, h5, _⟩ :=
      turtle_spawn_spawned_slot cfg env passes namep x y theta w w1 i h
    exact ⟨t1, h3, h4, h5⟩
  · intro msgp t q h0 h1
    constructor
    · intro t1 q1 b h
      unfold turtle_brain_step at h
      by_cases hl : t.lock = true
      · simp [hl] at h
      rw [if_neg hl] at h
      by_cases ha : t.status = TURTLE_ALIVE
      · rw [if_pos ha] at h
        cases htick : turtle_brain_tick cfg msgp t q with
        | error e => rw [htick] at h; simp at h
        | ok r =>
          obtain ⟨t2, q2⟩ := r
          rw [htick] at h
          simp only [Except.ok.injEq, Prod.mk.injEq] at h
          rw [← h.1]
          by_cases hc : 0 < t.countdown
          · obtain ⟨h2, _⟩ := turtle_brain_tick_moving cfg msgp t t2 q q2 hc htick
            rw [h2]
            obtain ⟨n1, n2, _⟩ := theta_normalised cfg._2PI cfg._2PI_pos
              (t.pose.theta + t.pose.angular_velocity * ((1 / 1000) * cfg.TURTLE_THREAD_PERIOD_MS))
            exact ⟨n1, n2⟩
          · unfold turtle_brain_tick at htick
            rw [if_neg hc] at htick
            simp only [Except.ok.injEq, Prod.mk.injEq] at htick
            rw [← htick.1]
            exact ⟨h0, h1⟩
      · rw [if_neg ha] at h
        unfold turtle_unref at h
        by_cases hr : t.refCnt = 0
        · simp [hr] at h
        rw [if_neg hr] at h
        by_cases hr1 : t.refCnt - 1 = 0
        · rw [if_pos hr1] at h
          by_cases hd : t.status = TURTLE_DEAD
          · rw [if_pos hd] at h
            simp only [Except.ok.injEq, Prod.mk.injEq] at h
            rw [← h.1]
            exact ⟨h0, h1⟩
          · simp [hd] at h
        · rw [if_neg hr1] at h
          simp only [Except.ok.injEq, Prod.mk.injEq] at h
          rw [← h.1]
          exact ⟨h0, h1⟩
    · intro ha hl hroom
      obtain ⟨t1, q1, htick⟩ := turtle_brain_tick_runs cfg msgp t q hroom
      exact ⟨t1, q1, by rw [turtle_brain_step_alive cfg msgp t q ha hl, htick]⟩
  · intro theta
    obtain ⟨h1, _, _, k, hk⟩ := theta_add_loop_spec cfg._2PI cfg._2PI_pos theta
    exact ⟨k, hk, h1⟩
  · intro theta
    obtain ⟨h1, _, _, k, hk⟩ := theta_sub_loop_spec cfg._2PI cfg._2PI_pos theta
    exact ⟨k, hk, h1⟩

/-- C18 (evaluation at the failing input): after a `turtle_spawn` of the
name `a` whose first registration fails, the only slot is EMPTY and
unreferenced, yet its name is still `a` and its five endpoint strings still
have the length and the bytes the call gave them. -/
theorem turtle_spawn_error_keeps_strings (cfg : Config) :
    ∃ w0 w1 t, app_initialize_state 1 = .ok w0 ∧
      World.run cfg w0
        [Op.spawn { spawnEnvOk with regPose := false } 1 ['a'] 0 0 0] = .ok w1 ∧
      w1.turtles = [t] ∧ t.status = TURTLE_EMPTY ∧ t.refCnt = 0 ∧ t.name = ['a'] ∧
      t.poseTopic = endpointName ['a'] posend ∧ t.velTopic = endpointName ['a'] velend ∧
      t.setpenService = endpointName ['a'] setpenend ∧
      t.telabsService = endpointName ['a'] telabsend ∧
      t.telrelService = endpointName ['a'] telrelend :=
  ⟨_, _, _, rfl, rfl, rfl, rfl, rfl, rfl, rfl, rfl, rfl, rfl, rfl⟩

/-- C20 (evaluation at the failing inputs): on a fresh pool whose only slot
is unlocked, a `turtle_spawn` whose first `urosStringClone` fails, and one
whose allocation of an endpoint string fails, both return `NULL` with the
lock of slot 0 still held; a later `turtle_refbyname` then waits on that
lock. -/
theorem turtle_spawn_leaves_lock_held (cfg : Config) :
    ∃ w0 w1 w2, app_initialize_state 1 = .ok w0 ∧
      w0.turtles.map (fun t => t.lock) = [false] ∧
      turtle_spawn cfg { spawnEnvOk with allocName := false } 1 ['a'] 0 0 0 w0 =
        .ok (SpawnExit.allocName, w1) ∧
      w1.turtles.map (fun t => t.lock) = [true] ∧
      turtle_spawn cfg { spawnEnvOk with allocVel := false } 1 ['a'] 0 0 0 w0 =
        .ok (SpawnExit.allocStrings, w2) ∧
      w2.turtles.map (fun t => t.lock) = [true] ∧
      turtle_refbyname ['a'] w1.turtles = .error Fault.blocked :=
  ⟨_, _, _, rfl, rfl, rfl, rfl, rfl, rfl, rfl⟩

/-- C19: on a queue made by `fifo_init C`, after every sequence of
`fifo_enqueue` / `fifo_dequeue` calls none of which had to wait: `head < C`,
`tail < C`, the number `usedSem` of stored handles is at most `C`,
`tail = (head + usedSem) mod C`, and `freeSem + usedSem = C`. The handles
enqueued and not yet dequeued are all still in their slots, from `head` on
in order of arrival (none was overwritten), and every value a dequeue
returned is a handle that was enqueued (never a slot that was not
written). -/
theorem fifo_cursors_invariant (C : Nat) (ops : List FifoOp) (q0 q : fifo_t)
    (outs : List (Option Nat)) (hinit : fifo_init C = .ok q0)
    (hrun : fifo_run q0 ops = .ok (q, outs)) :
    0 < C ∧ q.length = C ∧ q.head < C ∧ q.tail < C ∧ q.usedSem ≤ C ∧
      q.tail = (q.head + q.usedSem) % C ∧ q.freeSem + q.usedSem = C ∧
      ∃ vals pending, outs = vals.map some ∧ enqueuedHandles ops = vals ++ pending ∧
        pending.length = q.usedSem ∧
        ∀ i, i < pending.length →
          q.slots.getD ((q.head + i) % C) none = pending[i]? := by
  obtain ⟨vals, pending, h1, h2, inv⟩ :=
    fifo_run_inv C ops q0 q [] outs (fifo_init_inv C q0 hinit) hrun
  simp only [List.nil_append] at h2
  have hsem := inv.sem
  refine ⟨inv.pos, inv.len, inv.hd, ?_, by omega, inv.tl, hsem, vals, pending, h1, h2,
    inv.used, inv.cont⟩
  rw [inv.tl]
  exact Nat.mod_lt _ inv.pos

theorem fifo_cursors_invariant_witness :
    (1 : Nat) < 2 ∧ (0 : Nat) = (1 + 1) % 2 ∧ (1 : Nat) + 1 = 2 := by
  have h := fifo_cursors_invariant 2
    [FifoOp.enqueue 7, FifoOp.enqueue 8, FifoOp.dequeue, FifoOp.enqueue 9,
      FifoOp.dequeue, FifoOp.enqueue 5, FifoOp.dequeue]
    { freeSem := 2, usedSem := 0, length := 2, head := 0, tail := 0, slotsMtx := false,
      slots := [none, none] }
    { freeSem := 1, usedSem := 1, length := 2, head := 1, tail := 0, slotsMtx := false,
      slots := [some 9, some 5] }
    [some 7, some 8, some 9] rfl rfl
  exact ⟨h.2.2.1, h.2.2.2.2.2.1, h.2.2.2.2.2.2.1⟩

theorem theta_loops_zero (P : ℚ) (hP : 0 < P) :
    theta_sub_loop P hP (theta_add_loop P hP 0) = 0 := by
  rw [(theta_add_loop_spec P hP 0).2.2.1 (le_refl _), (theta_sub_loop_spec P hP 0).2.2.1 hP]

theorem turtle_brain_integrate_straight (cfg : Config) (t : turtle_t)
    (hlin : t.pose.linear_velocity = 1) (hang : t.pose.angular_velocity = 0)
    (htheta : t.pose.theta = 0) (hcos : cfg.cos 0 = 1) (hsin : cfg.sin 0 = 0)
    (hx0 : 0 ≤ t.pose.x + tickSeconds cfg)
    (hx1 : t.pose.x + tickSeconds cfg ≤ cfg.SANDBOX_WIDTH)
    (hy0 : 0 ≤ t.pose.y) (hy1 : t.pose.y ≤ cfg.SANDBOX_HEIGHT) :
    (turtle_brain_integrate cfg t).pose.x = t.pose.x + tickSeconds cfg ∧
      (turtle_brain_integrate cfg t).pose.y = t.pose.y ∧
      (turtle_brain_integrate cfg t).pose.theta = 0 ∧
      (turtle_brain_integrate cfg t).pose.linear_velocity = 1 ∧
      (turtle_brain_integrate cfg t).pose.angular_velocity = 0 ∧
      (turtle_brain_integrate cfg t).countdown = t.countdown - 1 ∧
      (turtle_brain_integrate cfg t).status = t.status ∧
      (turtle_brain_integrate cfg t).lock = t.lock ∧
      turtle_brain_unclamped cfg t = (t.pose.x + tickSeconds cfg, t.pose.y) := by
  have e1 : t.pose.x + cfg.cos t.pose.theta * t.pose.linear_velocity *
      ((1 / 1000) * cfg.TURTLE_THREAD_PERIOD_MS) = t.pose.x + tickSeconds cfg := by
    rw [htheta, hcos, hlin, tickSeconds]; ring
  have e2 : t.pose.y + cfg.sin t.pose.theta * t.pose.linear_velocity *
      ((1 / 1000) * cfg.TURTLE_THREAD_PERIOD_MS) = t.pose.y := by
    rw [htheta, hsin]; ring
  have e3 : t.pose.theta + t.pose.angular_velocity *
      ((1 / 1000) * cfg.TURTLE_THREAD_PERIOD_MS) = 0 := by
    rw [htheta, hang]; ring
  refine ⟨?_, ?_, ?_, hlin, hang, rfl, rfl, rfl, ?_⟩
  · show c_min (c_max 0 _) _ = _
    rw [e1]
    exact clamp_of_in_range _ _ hx0 hx1
  · show c_min (c_max 0 _) _ = _
    rw [e2]
    exact clamp_of_in_range _ _ hy0 hy1
  · show theta_sub_loop _ _ (theta_add_loop _ _ _) = _
    rw [e3]
    exact theta_loops_zero _ _
  · show (_, _) = _
    rw [e1, e2]

theorem turtle_brain_run_straight (cfg : Config) (ms : List Nat)
    (hcos : cfg.cos 0 = 1) (hsin : cfg.sin 0 = 0) (hdt : 0 ≤ tickSeconds cfg) :
    ∀ (t : turtle_t) (q : fifo_t), t.status = TURTLE_ALIVE → t.lock = false →
      t.pose.linear_velocity = 1 → t.pose.angular_velocity = 0 → t.pose.theta = 0 →
      t.countdown = ms.length → 0 ≤ t.pose.x →
      t.pose.x + ms.length * tickSeconds cfg ≤ cfg.SANDBOX_WIDTH →
      0 ≤ t.pose.y → t.pose.y ≤ cfg.SANDBOX_HEIGHT →
      (∀ t1 q1, turtle_brain_run cfg ms t q = .ok (t1, q1) →
        t1.pose.x = t.pose.x + ms.length * tickSeconds cfg ∧ t1.pose.y = t.pose.y ∧
        t1.pose.theta = t.pose.theta ∧ t1.countdown = 0) ∧
      (t.pose.y ≤ cfg.SANDBOX_WIDTH → ∃ t1, turtle_brain_run cfg ms t q = .ok (t1, q)) := by
  induction ms with
  | nil =>
    intro t q _ _ _ _ _ hc _ _ _ _
    refine ⟨?_, fun _ => ⟨t, rfl⟩⟩
    intro t1 q1 h
    simp only [turtle_brain_run, Except.ok.injEq, Prod.mk.injEq] at h
    rw [← h.1]
    simp only [List.length_nil] at hc
    simp [hc]
  | cons m ms ih =>
    intro t q halive hlock hlin hang htheta hc hx0 hx1 hy0 hy1
    simp only [List.length_cons, Nat.cast_add, Nat.cast_one] at hc hx1
    have hlen : (0 : ℚ) ≤ (ms.length : ℚ) := Nat.cast_nonneg _
    have hmul : 0 ≤ (ms.length : ℚ) * tickSeconds cfg := mul_nonneg hlen hdt
    have hxa : 0 ≤ t.pose.x + tickSeconds cfg := by linarith
    have hxb : t.pose.x + tickSeconds cfg ≤ cfg.SANDBOX_WIDTH := by
      have : ((ms.length : ℚ) + 1) * tickSeconds cfg =
          (ms.length : ℚ) * tickSeconds cfg + tickSeconds cfg := by ring
      linarith
    obtain ⟨ix, iy, ith, ilin, iang, icd, ist, ilk, iun⟩ :=
      turtle_brain_integrate_straight cfg t hlin hang htheta hcos hsin hxa hxb hy0 hy1
    have hpos : 0 < t.countdown := by omega
    have hih := ih (turtle_brain_integrate cfg t)
    have hstep := turtle_brain_step_alive cfg m t q halive hlock
    constructor
    · intro t1 q1 h
      simp only [turtle_brain_run, hstep] at h
      cases htick : turtle_brain_tick cfg m t q with
      | error e => rw [htick] at h; simp at h
      | ok r =>
        obtain ⟨t2, q2⟩ := r
        rw [htick] at h
        simp only at h
        obtain ⟨h2, _⟩ := turtle_brain_tick_moving cfg m t t2 q q2 hpos htick
        subst h2
        obtain ⟨r1, r2, r3, r4⟩ := (hih q2 (by rw [ist, halive]) (by rw [ilk, hlock]) ilin iang
          ith (by rw [icd]; omega) (by rw [ix]; exact hxa)
          (by rw [ix]; have : ((ms.length : ℚ) + 1) * tickSeconds cfg =
                (ms.length : ℚ) * tickSeconds cfg + tickSeconds cfg := by ring
              linarith)
          (by rw [iy]; exact hy0) (by rw [iy]; exact hy1)).1 t1 q1 h
        refine ⟨?_, by rw [r2, iy], by rw [r3, ith, htheta], r4⟩
        rw [r1, ix]
        simp only [List.length_cons, Nat.cast_add, Nat.cast_one]
        ring
    · intro hyw
      have hwall : hitTheWall cfg (turtle_brain_unclamped cfg t).1
          (turtle_brain_unclamped cfg t).2 = false := by
        rw [iun]
        simp only [hitTheWall, Bool.or_eq_false_iff, decide_eq_false_iff_not, not_lt]
        exact ⟨⟨⟨hxa, hxb⟩, hy0⟩, hyw⟩
      have htick : turtle_brain_tick cfg m t q = .ok (turtle_brain_integrate cfg t, q) := by
        simp [turtle_brain_tick, hpos, hwall]
      obtain ⟨t1, hrun⟩ := (hih q (by rw [ist, halive]) (by rw [ilk, hlock]) ilin iang
          ith (by rw [icd]; omega) (by rw [ix]; exact hxa)
          (by rw [ix]; have : ((ms.length : ℚ) + 1) * tickSeconds cfg =
                (ms.length : ℚ) * tickSeconds cfg + tickSeconds cfg := by ring
              linarith)
          (by rw [iy]; exact hy0) (by rw [iy]; exact hy1)).2 (by rw [iy]; exact hyw)
      exact ⟨t1, by simp only [turtle_brain_run, hstep, htick, hrun]⟩

/-- C15 (as stated, refuted): in the sample sandbox of width 11, an ALIVE
slot at `x = 11` with linear velocity 1, angular velocity 0, angle 0 and
countdown 1 is still at `x = 11` after its tick: the position is clamped at
the wall and has not increased by the tick period. -/
theorem turtle_brain_run_clamped_at_wall :
    sampleAtWall.status = TURTLE_ALIVE ∧ sampleAtWall.pose.linear_velocity = 1 ∧
      sampleAtWall.pose.angular_velocity = 0 ∧ sampleAtWall.pose.theta = 0 ∧
      sampleAtWall.countdown = 1 ∧ tickSeconds sampleConfig = 1 / 50 ∧
      ∃ t1 q1, turtle_brain_run sampleConfig [1] sampleAtWall (worldOf []).rosoutQueue =
          .ok (t1, q1) ∧
        t1.pose.x = sampleAtWall.pose.x ∧
        t1.pose.x ≠ sampleAtWall.pose.x + (1 : ℕ) * tickSeconds sampleConfig := by
  refine ⟨rfl, rfl, rfl, rfl, rfl, by norm_num [tickSeconds, sampleConfig], ?_⟩
  obtain ⟨t1, q1, htick⟩ := turtle_brain_tick_runs sampleConfig 1 sampleAtWall
    (worldOf []).rosoutQueue (Or.inr ⟨by decide, by decide, rfl⟩)
  obtain ⟨h1, _⟩ := turtle_brain_tick_moving sampleConfig 1 sampleAtWall t1
    (worldOf []).rosoutQueue q1 (by decide) htick
  have hx : t1.pose.x = 11 := by
    rw [h1]
    show c_min (c_max 0 _) _ = _
    simp only [sampleAtWall, sampleConfig, c_min, c_max]
    norm_num
  refine ⟨t1, q1, ?_, ?_, ?_⟩
  · simp only [turtle_brain_run,
      turtle_brain_step_alive sampleConfig 1 sampleAtWall (worldOf []).rosoutQueue rfl rfl,
      htick]
  · rw [hx]
    rfl
  · rw [hx]
    simp only [sampleAtWall, tickSeconds, sampleConfig]
    norm_num

/-- C15 (amended): let `K > 0`, and let an ALIVE slot (lock free) have
linear velocity 1, angular velocity 0, angle 0 and countdown `K`, with
`cos 0 = 1`, `sin 0 = 0` and a tick period `dt ≥ 0`. If the position starts
inside the sandbox and `x + K·dt` does not pass `SANDBOX_WIDTH`, then `K`
turns of `turtle_brain_thread` leave `x` increased by exactly `K·dt`, `y` and
`theta` unchanged and the countdown at 0; and the `K` turns do run to their
end when no warning is due (`y ≤ SANDBOX_WIDTH`), leaving the `/rosout` queue
untouched. -/
theorem turtle_brain_run_advances (cfg : Config) (K : Nat) (ms : List Nat)
    (t : turtle_t) (q : fifo_t) (hK : 0 < K) (hms : ms.length = K)
    (halive : t.status = TURTLE_ALIVE) (hlock : t.lock = false)
    (hlin : t.pose.linear_velocity = 1) (hang : t.pose.angular_velocity = 0)
    (htheta : t.pose.theta = 0) (hc : t.countdown = K)
    (hcos : cfg.cos 0 = 1) (hsin : cfg.sin 0 = 0) (hdt : 0 ≤ tickSeconds cfg)
    (hin : inSandbox cfg t.pose)
    (hroom : t.pose.x + K * tickSeconds cfg ≤ cfg.SANDBOX_WIDTH) :
    (∀ t1 q1, turtle_brain_run cfg ms t q = .ok (t1, q1) →
      t1.pose.x = t.pose.x + K * tickSeconds cfg ∧ t1.pose.y = t.pose.y ∧
      t1.pose.theta = t.pose.theta ∧ t1.countdown = 0) ∧
    (t.pose.y ≤ cfg.SANDBOX_WIDTH → ∃ t1, turtle_brain_run cfg ms t q = .ok (t1, q)) := by
  have _ := hK
  obtain ⟨hx0, _, hy0, hy1⟩ := hin
  subst hms
  exact turtle_brain_run_straight cfg ms hcos hsin hdt t q halive hlock hlin hang htheta hc
    hx0 hroom hy0 hy1

theorem turtle_brain_run_advances_witness :
    ∃ t1, turtle_brain_run sampleConfig [1, 1, 1] sampleStarting (worldOf []).rosoutQueue =
        .ok (t1, (worldOf []).rosoutQueue) ∧
      t1.pose.x = sampleStarting.pose.x + (3 : ℕ) * tickSeconds sampleConfig ∧
      t1.pose.y = sampleStarting.pose.y ∧ t1.countdown = 0 := by
  have hcos : sampleConfig.cos 0 = 1 := by norm_num [sampleConfig]
  have hsin : sampleConfig.sin 0 = 0 := by norm_num [sampleConfig]
  have hdt : 0 ≤ tickSeconds sampleConfig := by norm_num [tickSeconds, sampleConfig]
  have hin : inSandbox sampleConfig sampleStarting.pose := by
    unfold inSandbox
    simp only [sampleStarting, sampleConfig]
    norm_num
  have hroom : sampleStarting.pose.x + (3 : ℕ) * tickSeconds sampleConfig ≤
      sampleConfig.SANDBOX_WIDTH := by
    simp only [sampleStarting, tickSeconds, sampleConfig]
    norm_num
  have hy : sampleStarting.pose.y ≤ sampleConfig.SANDBOX_WIDTH := by
    simp only [sampleStarting, sampleConfig]
    norm_num
  obtain ⟨hall, hex⟩ := turtle_brain_run_advances sampleConfig 3 [1, 1, 1] sampleStarting
    (worldOf []).rosoutQueue (by decide) rfl rfl rfl rfl rfl rfl rfl hcos hsin hdt hin hroom
  obtain ⟨t1, hrun⟩ := hex hy
  obtain ⟨h1, h2, _, h4⟩ := hall t1 _ hrun
  exact ⟨t1, hrun, h1, h2, h4⟩

/-- C16 (evaluation at the failing inputs): the test before the warning
compares `y` with `SANDBOX_WIDTH`. In a sandbox of width 5 and height 11 a
slot at rest at `(1, 7)`, inside the sandbox, posts the warning at its tick;
in a sandbox of width 11 and height 5 a slot that climbs from `(1, 5)` gets a
new `y` above the height and posts nothing, the queue staying as it was; `y`
is then clamped to 5. -/
theorem turtle_brain_tick_warns_by_width :
    (inSandbox narrowConfig
        { sampleResting.pose with
          x := (turtle_brain_unclamped narrowConfig sampleResting).1
          y := (turtle_brain_unclamped narrowConfig sampleResting).2 } ∧
      ∃ t1 q1, turtle_brain_tick narrowConfig 1 sampleResting (worldOf []).rosoutQueue =
          .ok (t1, q1) ∧
        fifo_enqueue (worldOf []).rosoutQueue 1 = .ok q1 ∧ q1.usedSem = 1) ∧
    (lowConfig.SANDBOX_HEIGHT < (turtle_brain_unclamped lowConfig sampleClimbing).2 ∧
      ∃ t1, turtle_brain_tick lowConfig 1 sampleClimbing (worldOf []).rosoutQueue =
          .ok (t1, (worldOf []).rosoutQueue) ∧
        t1.pose.y = 5) := by
  constructor
  · have hwall : hitTheWall narrowConfig (turtle_brain_unclamped narrowConfig sampleResting).1
        (turtle_brain_unclamped narrowConfig sampleResting).2 = true := by
      simp only [hitTheWall, turtle_brain_unclamped, sampleResting, narrowConfig, sampleConfig]
      norm_num
    refine ⟨?_, ?_⟩
    · unfold inSandbox
      simp only [turtle_brain_unclamped, sampleResting, narrowConfig, sampleConfig]
      norm_num
    · obtain ⟨t1, q1, htick⟩ := turtle_brain_tick_runs narrowConfig 1 sampleResting
        (worldOf []).rosoutQueue (Or.inr ⟨by decide, by decide, rfl⟩)
      obtain ⟨_, h2⟩ := turtle_brain_tick_moving narrowConfig 1 sampleResting t1
        (worldOf []).rosoutQueue q1 (by decide) htick
      rcases h2 with ⟨h3, _⟩ | ⟨_, h4⟩
      · rw [hwall] at h3
        simp at h3
      · refine ⟨t1, q1, htick, h4, ?_⟩
        have h5 : fifo_enqueue (worldOf []).rosoutQueue 1 =
            .ok { (worldOf []).rosoutQueue with
                  freeSem := 7, slots := (worldOf []).rosoutQueue.slots.set 0 (some 1),
                  tail := 1, usedSem := 1 } := rfl
        rw [h5] at h4
        simp only [Except.ok.injEq] at h4
        rw [← h4]
  · have hwall : hitTheWall lowConfig (turtle_brain_unclamped lowConfig sampleClimbing).1
        (turtle_brain_unclamped lowConfig sampleClimbing).2 = false := by
      simp only [hitTheWall, turtle_brain_unclamped, sampleClimbing, lowConfig, sampleConfig]
      norm_num
    refine ⟨?_, turtle_brain_integrate lowConfig sampleClimbing, ?_, ?_⟩
    · simp only [turtle_brain_unclamped, sampleClimbing, lowConfig, sampleConfig]
      norm_num
    · have hc : 0 < sampleClimbing.countdown := by decide
      simp only [turtle_brain_tick, hc, hwall, if_true, Bool.false_eq_true, if_false]
    · show c_min (c_max 0 _) _ = _
      simp only [sampleClimbing, lowConfig, sampleConfig, c_min, c_max]
      norm_num

/-! ## Reuse of a released slot -/

theorem isPathOf_endpoint_name (namep suffix m : UrosString)
    (hn : '/' ∉ namep) (hs : '/' ∉ suffix)
    (h : IsPathOf (endpointName namep ('/' :: suffix)) m) : m = namep := by
  obtain ⟨rest, hrest⟩ := h
  unfold endpointName at hrest
  simp only [List.cons.injEq, true_and] at hrest
  rcases List.append_eq_append_iff.mp hrest with ⟨a, h1, h2⟩ | ⟨a, h1, h2⟩
  · cases a with
    | nil => simpa using h1
    | cons c a =>
      exfalso
      apply hs
      simp only [List.cons_append, List.cons.injEq] at h2
      rw [h2.2]
      simp
  · cases a with
    | nil => simpa using h1.symm
    | cons c a =>
      exfalso
      apply hn
      simp only [List.cons_append, List.cons.injEq] at h2
      rw [h1, ← h2.1]
      simp

theorem isPathOf_endpointName (namep suffix : UrosString) :
    IsPathOf (endpointName namep ('/' :: suffix)) namep :=
  ⟨suffix, rfl⟩

theorem turtle_refbypath_unique (p : UrosString) (ts : List turtle_t) (i : Nat)
    (t : turtle_t) (hp : p.head? = some '/') (hlock : ∀ u ∈ ts, u.lock = false)
    (hi : ts[i]? = some t) (hmatch : IsPathOf p t.name)
    (huniq : ∀ j u, ts[j]? = some u → j ≠ i → ¬ IsPathOf p u.name) :
    turtle_refbypath p ts = .ok (some i, modifyAt addRef ts i) := by
  obtain ⟨r, ts1, hrun, hsome, hnone⟩ := turtle_refbypath_loop_spec p ts 0 hlock
  have hne : p ≠ [] := by
    intro h
    rw [h] at hp
    simp at hp
  have hcall : turtle_refbypath p ts = .ok (r, ts1) := by
    simp [turtle_refbypath, hne, hp, hrun]
  cases r with
  | none =>
    exfalso
    have h1 := (hnone rfl).1 t (List.getElem?_mem hi)
    rw [(pathMatches_iff p t.name hp).mpr hmatch] at h1
    simp at h1
  | some k =>
    obtain ⟨_, u, h1, h2, _, h4⟩ := hsome k rfl
    simp only [Nat.sub_zero] at h1 h4
    have hk : k = i := by
      by_contra hne2
      exact huniq k u h1 hne2 ((pathMatches_iff p u.name hp).mp h2)
    rw [hcall, h4, hk]

theorem turtle_spawn_endpoint_names (cfg : Config) (env : SpawnEnv) (passes : Nat)
    (namep : UrosString) (x y theta : ℚ) (w w1 : World) (i : Nat)
    (h : turtle_spawn cfg env passes namep x y theta w = .ok (SpawnExit.spawned i, w1)) :
    ∃ t1, w1.turtles[i]? = some t1 ∧
      t1.name = urosStringClone env.allocSlotName namep ∧
      t1.poseTopic = '/' :: (namep ++ posend) ∧
      t1.velTopic = '/' :: (namep ++ velend) ∧
      t1.setpenService = '/' :: (namep ++ setpenend) ∧
      t1.telabsService = '/' :: (namep ++ telabsend) ∧
      t1.telrelService = '/' :: (namep ++ telrelend) ∧
      t1.poseTopic.length = 1 + namep.length + posend.length ∧
      t1.velTopic.length = 1 + namep.length + velend.length ∧
      t1.setpenService.length = 1 + namep.length + setpenend.length ∧
      t1.telabsService.length = 1 + namep.length + telabsend.length ∧
      t1.telrelService.length = 1 + namep.length + telrelend.length := by
  obtain ⟨t, _, _, _, h4, _, _⟩ := turtle_spawn_spawned cfg env passes namep x y theta w w1 i h
  refine ⟨_, h4, rfl, rfl, rfl, rfl, rfl, rfl, ?_, ?_, ?_, ?_, ?_⟩ <;>
    · simp only [turtle_spawn_assign, endpointName, List.length_cons, List.length_append]
      omega

theorem turtle_spawn_endpoint_resolves (cfg : Config) (env : SpawnEnv) (passes : Nat)
    (namep suffix : UrosString) (x y theta : ℚ) (w w1 : World) (i : Nat)
    (h : turtle_spawn cfg env passes namep x y theta w = .ok (SpawnExit.spawned i, w1))
    (hn : '/' ∉ namep) (hs : '/' ∉ suffix) (hname : env.allocSlotName = true)
    (hlocks : ∀ u ∈ w.turtles, u.lock = false)
    (hother : ∀ j u, w.turtles[j]? = some u → j ≠ i → u.name ≠ namep) :
    turtle_refbypath (endpointName namep ('/' :: suffix)) w1.turtles =
      .ok (some i, modifyAt addRef w1.turtles i) := by
  obtain ⟨t, _, _, _, h4, h5, _⟩ := turtle_spawn_spawned cfg env passes namep x y theta w w1 i h
  have hlocks1 : ∀ u ∈ w1.turtles, u.lock = false := by
    intro u hu
    obtain ⟨j, hj⟩ := List.mem_iff_getElem?.mp hu
    by_cases hji : j = i
    · rw [hji, h4] at hj
      simp only [Option.some.injEq] at hj
      rw [← hj]
    · rw [h5 j hji] at hj
      exact hlocks u (List.getElem?_mem hj)
  refine turtle_refbypath_unique _ w1.turtles i _ rfl hlocks1 h4 ?_ ?_
  · show IsPathOf _ (urosStringClone env.allocSlotName namep)
    rw [hname]
    exact isPathOf_endpointName namep suffix
  · intro j u hj hji hpath
    rw [h5 j hji] at hj
    exact hother j u hj hji (isPathOf_endpoint_name namep suffix u.name hn hs hpath)

/-- The endpoint strings of a successful `turtle_spawn` and their lookup:
the five strings of the returned slot are a slash, the requested name and
the suffix, with the lengths the call computes. When the name has no slash,
the copy of the name into the slot was allocated, the slot locks are free and
no other slot holds the name, `turtle_refbypath` of each of the five strings
returns the slot and raises its `refCnt` by one. -/
theorem turtle_spawn_endpoints_resolve (cfg : Config) (env : SpawnEnv) (passes : Nat)
    (namep : UrosString) (x y theta : ℚ) (w w1 : World) (i : Nat)
    (h : turtle_spawn cfg env passes namep x y theta w = .ok (SpawnExit.spawned i, w1))
    (hn : '/' ∉ namep) (hname : env.allocSlotName = true)
    (hlocks : ∀ u ∈ w.turtles, u.lock = false)
    (hother : ∀ j u, w.turtles[j]? = some u → j ≠ i → u.name ≠ namep) :
    ∃ t1, w1.turtles[i]? = some t1 ∧ t1.name = namep ∧
      turtle_refbypath t1.poseTopic w1.turtles =
        .ok (some i, modifyAt addRef w1.turtles i) ∧
      turtle_refbypath t1.velTopic w1.turtles =
        .ok (some i, modifyAt addRef w1.turtles i) ∧
      turtle_refbypath t1.setpenService w1.turtles =
        .ok (some i, modifyAt addRef w1.turtles i) ∧
      turtle_refbypath t1.telabsService w1.turtles =
        .ok (some i, modifyAt addRef w1.turtles i) ∧
      turtle_refbypath t1.telrelService w1.turtles =
        .ok (some i, modifyAt addRef w1.turtles i) := by
  obtain ⟨t1, h1, h2, e1, e2, e3, e4, e5, _⟩ :=
    turtle_spawn_endpoint_names cfg env passes namep x y theta w w1 i h
  have hres := fun suffix hs => turtle_spawn_endpoint_resolves cfg env passes namep suffix
    x y theta w w1 i h hn hs hname hlocks hother
  refine ⟨t1, h1, by rw [h2, hname]; rfl, ?_, ?_, ?_, ?_, ?_⟩
  · rw [e1]
    exact hres posend.tail (by decide)
  · rw [e2]
    exact hres velend.tail (by decide)
  · rw [e3]
    exact hres setpenend.tail (by decide)
  · rw [e4]
    exact hres telabsend.tail (by decide)
  · rw [e5]
    exact hres telrelend.tail (by decide)

/-- C21 (evaluation at the failing input): a `turtle_spawn` of the name `a`
on a fresh pool, whose second `urosStringClone` (the copy stored into the
slot) cannot allocate, succeeds and gives slot 0 the five endpoint strings
`/a/pose`, ..., `/a/teleport_relative`; the slot name is empty, and
`turtle_refbypath` of each of the five strings returns `NULL` instead of
slot 0. -/
theorem turtle_refbypath_misses_unnamed_slot (cfg : Config) :
    ∃ w0 w1 t1, app_initialize_state 1 = .ok w0 ∧
      turtle_spawn cfg { spawnEnvOk with allocSlotName := false } 1 ['a'] 0 0 0 w0 =
        .ok (SpawnExit.spawned 0, w1) ∧
      w1.turtles = [t1] ∧ t1.status = TURTLE_ALIVE ∧ t1.name = [] ∧
      t1.poseTopic = '/' :: (['a'] ++ posend) ∧
      t1.velTopic = '/' :: (['a'] ++ velend) ∧
      t1.setpenService = '/' :: (['a'] ++ setpenend) ∧
      t1.telabsService = '/' :: (['a'] ++ telabsend) ∧
      t1.telrelService = '/' :: (['a'] ++ telrelend) ∧
      turtle_refbypath t1.poseTopic w1.turtles = .ok (none, w1.turtles) ∧
      turtle_refbypath t1.velTopic w1.turtles = .ok (none, w1.turtles) ∧
      turtle_refbypath t1.setpenService w1.turtles = .ok (none, w1.turtles) ∧
      turtle_refbypath t1.telabsService w1.turtles = .ok (none, w1.turtles) ∧
      turtle_refbypath t1.telrelService w1.turtles = .ok (none, w1.turtles) :=
  ⟨_, _, _, rfl, rfl, rfl, rfl, rfl, rfl, rfl, rfl, rfl, rfl, rfl, rfl, rfl, rfl, rfl⟩

end UrosTurtlesim
